import Mathlib

/-!
Shallow embedding of the nao persistence core (package data): the generic
Create / Update / Delete / GetByID engine over bolt-style buckets, the
per-entity services (Media, Person, MediaRelation) from internal/data, the
older pkg/data Episode and MediaProducer operations, and the byte-key
encoding itob.  Machine integers are modelled as Int / Nat with explicit
mod 2^64 where Go converts between int and uint64.  JSON byte strings are
modelled by a structured Json value; serializing a Json value to actual
bytes is injective, so storing Json values directly is faithful for all
properties about store contents.  Transactions are modelled explicitly:
each bolt View / Update call allocates a fresh transaction id from a
counter, lookups and puts are logged as events tagged with the id of the
transaction that performed them, and a write transaction commits its
working copy of the store only when its body succeeds (bolt's
implicit-abort-on-error contract).
-/

/-- A JSON value, standing for the marshalled byte string Go stores. -/
inductive Json where
  | null : Json
  | bool (b : Bool) : Json
  | num (n : Int) : Json
  | str (s : String) : Json
  | arr (xs : List Json) : Json
  | obj (fs : List (String × Json)) : Json

/-- Errors returned by the data layer (the Go code returns error values
built with fmt.Errorf / errors.New; only their identity matters here). -/
inductive Err where
  | nilModel : Err
  | wrongType (want : String) : Err
  | nilBucket : Err
  | notFound (id : Int) : Err
  | invalidWatchStatus : Err
  | jsonDecode (what : String) : Err
deriving DecidableEq

/-- Result of running a piece of Go code: a value, a returned error, or a
runtime panic (nil pointer dereference). -/
inductive Outcome (α : Type) where
  | ok (a : α) : Outcome α
  | err (e : Err) : Outcome α
  | panic : Outcome α
deriving DecidableEq

/-- A store access event, tagged with the id of the transaction that
performed it: a point lookup (Bucket.Get) or a write (Bucket.Put). -/
inductive Event where
  | lookup (tx : Nat) (bucket : String) (key : List Nat) : Event
  | put (tx : Nat) (bucket : String) (key : List Nat) : Event
deriving DecidableEq

/-- The unsigned 8-byte view Go takes of an int: uint64(v). -/
def u64 (v : Int) : Nat := (v % (2 ^ 64 : Int)).toNat

/-- Conversion back: int(id) applied to a uint64 value (two's complement). -/
def i64 (n : Nat) : Int := if n < 2 ^ 63 then (n : Int) else (n : Int) - 2 ^ 64

/-- Go int increment, v + 1 on a 64-bit int: two's-complement addition,
wrapping from 2 ^ 63 - 1 to -(2 ^ 63). -/
def goInc (v : Int) : Int := i64 ((u64 v + 1) % 2 ^ 64)

/-- Big-endian base-256 digits, most significant first: beBytes k n lists
the k bytes of n as binary.BigEndian would write them. -/
def beBytes : Nat → Nat → List Nat
  | 0, _ => []
  | k + 1, n => (n / 256 ^ k % 256) :: beBytes k (n % 256 ^ k)

/-- itob from internal/data/main.go: the fixed-width 8-byte big-endian
encoding of uint64(v). -/
def itob (v : Int) : List Nat := beBytes 8 (u64 v)

/-- Lexicographic byte-string order, as bytes.Compare orders keys. -/
def lexLt : List Nat → List Nat → Bool
  | [], [] => false
  | [], _ :: _ => true
  | _ :: _, [] => false
  | a :: as, b :: bs => if a < b then true else if b < a then false else lexLt as bs

/-- Contents of one named bolt bucket: its monotonic sequence counter and
its key/value entries (keys are byte strings produced by itob). -/
structure BucketData where
  seq : Nat
  entries : List (List Nat × Json)

/-- The whole store: the named buckets that exist. -/
abbrev Store := List (String × BucketData)

def storeFind : Store → String → Option BucketData
  | [], _ => none
  | (n, bd) :: rest, name => if n = name then some bd else storeFind rest name

def storeSet : Store → String → BucketData → Store
  | [], _, _ => []
  | (n, bd) :: rest, name, bd1 =>
    if n = name then (n, bd1) :: rest else (n, bd) :: storeSet rest name bd1

def entryFind : List (List Nat × Json) → List Nat → Option Json
  | [], _ => none
  | (k, v) :: rest, key => if k = key then some v else entryFind rest key

def entryPut : List (List Nat × Json) → List Nat → Json → List (List Nat × Json)
  | [], key, v => [(key, v)]
  | (k0, v0) :: rest, key, v =>
    if k0 = key then (key, v) :: rest else (k0, v0) :: entryPut rest key v

def entryDel : List (List Nat × Json) → List Nat → List (List Nat × Json)
  | [], _ => []
  | (k0, v0) :: rest, key =>
    if k0 = key then entryDel rest key else (k0, v0) :: entryDel rest key

/-- Auxiliary database state threaded through transactions: the next fresh
transaction id and the log of events so far.  Bodies of transactions can
read the committed store but can only change it through commit. -/
structure Aux where
  nextTx : Nat
  events : List Event

/-- The full database state between operations. -/
structure DBState where
  store : Store
  nextTx : Nat
  events : List Event

/-- A non-nil bolt bucket handle: it remembers the transaction it was
opened in and the bucket name it addresses. -/
structure BucketHandle where
  txid : Nat
  name : String
  data : BucketData

/-- Bucket from internal/data/main.go: returns tx.Bucket(name) and a nil
error.  When the named bucket does not exist the handle is nil (none) and
the error is still nil. -/
def Bucket (name : String) (txid : Nat) (st : Store) : Option BucketHandle × Option Err :=
  (match storeFind st name with
   | none => none
   | some bd => some ⟨txid, name, bd⟩,
   none)

/-- The function get from internal/data/main.go (named bget here since the plain name collides with a library name): guards against a nil bucket handle,
then performs b.Get(itob ID), failing with not-found when absent.  The Get
is the referential lookup event. -/
def bget (id : Int) (b : Option BucketHandle) : Outcome Json × List Event :=
  match b with
  | none => (Outcome.err Err.nilBucket, [])
  | some bk =>
    (match entryFind bk.data.entries (itob id) with
     | none => Outcome.err (Err.notFound id)
     | some v => Outcome.ok v,
     [Event.lookup bk.txid bk.name (itob id)])

/-- b.NextSequence() inside a write transaction: increments the bucket's
sequence counter (a uint64, wrapping mod 2^64) in the working store and
returns the new value.  bolt only fails here for closed or read-only
transactions, which cannot occur in these call sites. -/
def NextSequence (bk : BucketHandle) (w : Store) : Nat × Store :=
  match storeFind w bk.name with
  | none => (0, w)
  | some bd =>
    let s1 := (bd.seq + 1) % 2 ^ 64
    (s1, storeSet w bk.name { bd with seq := s1 })

/-- b.Put(key, value) inside a write transaction: stores the value under
the key in the working store and logs the write event. -/
def putKey (bk : BucketHandle) (key : List Nat) (v : Json) (w : Store) (a : Aux) :
    Store × Aux :=
  (match storeFind w bk.name with
   | none => w
   | some bd => storeSet w bk.name { bd with entries := entryPut bd.entries key v },
   { a with events := a.events ++ [Event.put bk.txid bk.name key] })

/-- b.Delete(key) inside a write transaction: removes the key from the
bucket in the working store, whether or not it was present. -/
def delKey (bk : BucketHandle) (key : List Nat) (w : Store) : Store :=
  match storeFind w bk.name with
  | none => w
  | some bd => storeSet w bk.name { bd with entries := entryDel bd.entries key }

/-- db.View: allocates a fresh transaction id, runs the read-only body
against the committed store, and appends the body's events. -/
def dbView (st : Store) (a : Aux) (body : Nat → Store → Outcome α × List Event) :
    Outcome α × Aux :=
  match body a.nextTx st with
  | (r, evs) => (r, ⟨a.nextTx + 1, a.events ++ evs⟩)

/-- db.Update: allocates a fresh transaction id and runs the body with a
working copy of the committed store.  The body also receives the committed
store (for nested db.View calls) and the auxiliary state.  On success the
working copy is committed; on error or panic the store is rolled back
(bolt's implicit abort). -/
def dbUpdate (s : DBState)
    (body : Nat → Store → Store → Aux → Outcome α × Store × Aux) :
    Outcome α × DBState :=
  match body s.nextTx s.store s.store ⟨s.nextTx + 1, s.events⟩ with
  | (Outcome.ok x, w, a) => (Outcome.ok x, ⟨w, a.nextTx, a.events⟩)
  | (Outcome.err e, _, a) => (Outcome.err e, ⟨s.store, a.nextTx, a.events⟩)
  | (Outcome.panic, _, a) => (Outcome.panic, ⟨s.store, a.nextTx, a.events⟩)

/-- GetRawByID from internal/data/main.go: a read-only transaction doing a
point lookup through Bucket and get. -/
def GetRawByID (id : Int) (bucketName : String) (st : Store) (a : Aux) :
    Outcome Json × Aux :=
  dbView st a (fun t store =>
    match Bucket bucketName t store with
    | (_, some e) => (Outcome.err e, [])
    | (b, none) => bget id b)

/-- GetRawAll from internal/data/main.go: a read-only transaction listing
every value in the bucket via b.ForEach.  A nil bucket handle is
dereferenced unconditionally, which is a nil-pointer panic. -/
def GetRawAll (bucketName : String) (s : DBState) : Outcome (List Json) × DBState :=
  match dbView s.store ⟨s.nextTx, s.events⟩ (fun t store =>
    match Bucket bucketName t store with
    | (_, some e) => (Outcome.err e, [])
    | (none, none) => (Outcome.panic, [])
    | (some bk, none) => (Outcome.ok (bk.data.entries.map Prod.snd), [])) with
  | (r, a) => (r, ⟨s.store, a.nextTx, a.events⟩)

/-- Wall-clock time as Go's time.Time marshals it: an opaque RFC3339
string representation (the formatting is injective on valid times). -/
structure GoTime where
  rep : String
deriving DecidableEq

/-- Modelled from the spec: the Info record type used by Person, Episode
and UserMedia is declared in a source file that is not part of the
sources here; the spec only describes entity fields as cleaned string
data, so Info is modelled as a record holding one string. -/
structure Info where
  Text : String
deriving DecidableEq

/-- Season from internal/data (Quarter is an int enum behind a pointer). -/
structure Season where
  Quarter : Option Int
  Year : Option Int
deriving DecidableEq

/-- Media from internal/data/main.go.  The Go field Type is called Typ
here because Type is a Lean keyword; the embedded nil Model interface
field marshals as a constant null. -/
structure Media where
  ID : Int
  Titles : List (String × String)
  Synopses : List (String × String)
  Background : List (String × String)
  StartDate : Option GoTime
  EndDate : Option GoTime
  SeasonPremiered : Season
  Typ : Option String
  Source : Option String
  Version : Int
deriving DecidableEq

/-- Person from internal/data/person.go. -/
structure Person where
  ID : Int
  Names : List Info
  Information : List Info
  Version : Int
deriving DecidableEq

/-- MediaRelation from internal/data/media_relation.go. -/
structure MediaRelation where
  ID : Int
  OwnerID : Int
  RelatedID : Int
  Relationship : String
  Version : Int
deriving DecidableEq

/-- The Model interface: a dynamic value that is one of the concrete
entity types or a nil interface value. -/
inductive Model where
  | media (md : Media) : Model
  | person (p : Person) : Model
  | mediaRelation (mr : MediaRelation) : Model
  | nil : Model
deriving DecidableEq

/-- Iden(): every concrete model returns its ID field.  Calling it on a
nil interface would panic in Go; that call site is unreachable because
every operation type-asserts the model first. -/
def Model.iden : Model → Int
  | .media md => md.ID
  | .person p => p.ID
  | .mediaRelation mr => mr.ID
  | .nil => 0

/-- strings.Trim(s, " "): strips leading and trailing space characters. -/
def goTrim (s : String) : String :=
  String.mk (((s.data.dropWhile (· = ' ')).reverse.dropWhile (· = ' ')).reverse)

/-- Modelled from the spec: infoListClean is declared in a source file
that is not part of the sources here; the spec describes normalization as
in-place whitespace trimming, so it trims each Info string and returns no
error. -/
def infoListClean (l : List Info) : Except Err (List Info) :=
  Except.ok (l.map (fun i => ⟨goTrim i.Text⟩))

/-- The uniform Service capability set from the generic engine
(part_002).  Clean, initModel (Go name Initialize) and
PersistOldProperties mutate their model in place in Go and are modelled
as functions returning the updated model.  Validate may open its own
read-only transactions on the database, so it receives the committed
store and the transaction-id/event state. -/
structure Service where
  bucketName : String
  Clean : Model → Except Err Model
  Validate : Model → Store → Aux → Outcome Unit × Aux
  initModel : Model → Int → Except Err Model
  PersistOldProperties : Model → Model → Except Err Model
  Marshal : Model → Except Err Json
  Unmarshal : Json → Except Err Model

/-- Create from the generic engine (part_002): clean, validate, then one
write transaction obtaining the next sequence number, initializing the
model, marshalling and putting it.  The nil-error branch after Bucket
mirrors the dead error check in the source; a nil bucket handle would be
dereferenced by b.NextSequence. -/
def Create (m : Model) (ser : Service) (s : DBState) : Outcome Model × DBState :=
  match ser.Clean m with
  | Except.error e => (Outcome.err e, s)
  | Except.ok m1 =>
    match ser.Validate m1 s.store ⟨s.nextTx, s.events⟩ with
    | (Outcome.err e, a) => (Outcome.err e, ⟨s.store, a.nextTx, a.events⟩)
    | (Outcome.panic, a) => (Outcome.panic, ⟨s.store, a.nextTx, a.events⟩)
    | (Outcome.ok _, a) =>
      dbUpdate ⟨s.store, a.nextTx, a.events⟩ (fun t _ w a1 =>
        match Bucket ser.bucketName t w with
        | (_, some e) => (Outcome.err e, w, a1)
        | (none, none) => (Outcome.panic, w, a1)
        | (some bk, none) =>
          match NextSequence bk w with
          | (idNat, w1) =>
            match ser.initModel m1 (i64 idNat) with
            | Except.error e => (Outcome.err e, w1, a1)
            | Except.ok m2 =>
              match ser.Marshal m2 with
              | Except.error e => (Outcome.err e, w1, a1)
              | Except.ok buf =>
                match putKey bk (itob (Model.iden m2)) buf w1 a1 with
                | (w2, a2) => (Outcome.ok m2, w2, a2))

/-- Update from the generic engine (part_002): clean, validate, then one
write transaction that re-reads the stored value by ID through
GetRawByID (itself a nested read-only transaction on the database),
unmarshals the old value, persists frozen properties onto the new model,
marshals and puts it.  A nil bucket handle would be dereferenced by
b.Put. -/
def Update (m : Model) (ser : Service) (s : DBState) : Outcome Model × DBState :=
  match ser.Clean m with
  | Except.error e => (Outcome.err e, s)
  | Except.ok m1 =>
    match ser.Validate m1 s.store ⟨s.nextTx, s.events⟩ with
    | (Outcome.err e, a) => (Outcome.err e, ⟨s.store, a.nextTx, a.events⟩)
    | (Outcome.panic, a) => (Outcome.panic, ⟨s.store, a.nextTx, a.events⟩)
    | (Outcome.ok _, a) =>
      dbUpdate ⟨s.store, a.nextTx, a.events⟩ (fun t committed w a1 =>
        match GetRawByID (Model.iden m1) ser.bucketName committed a1 with
        | (Outcome.err e, a2) => (Outcome.err e, w, a2)
        | (Outcome.panic, a2) => (Outcome.panic, w, a2)
        | (Outcome.ok v, a2) =>
          match ser.Unmarshal v with
          | Except.error e => (Outcome.err e, w, a2)
          | Except.ok o =>
            match Bucket ser.bucketName t w with
            | (_, some e) => (Outcome.err e, w, a2)
            | (none, none) => (Outcome.panic, w, a2)
            | (some bk, none) =>
              match ser.PersistOldProperties m1 o with
              | Except.error e => (Outcome.err e, w, a2)
              | Except.ok m2 =>
                match ser.Marshal m2 with
                | Except.error e => (Outcome.err e, w, a2)
                | Except.ok buf =>
                  match putKey bk (itob (Model.iden m2)) buf w a2 with
                  | (w1, a3) => (Outcome.ok m2, w1, a3))

/-- Delete from the generic engine (part_002): one write transaction
removing the key, whether or not it exists.  A nil bucket handle is
dereferenced unconditionally by b.Delete, a nil-pointer panic. -/
def Delete (id : Int) (ser : Service) (s : DBState) : Outcome Unit × DBState :=
  dbUpdate s (fun t _ w a =>
    match Bucket ser.bucketName t w with
    | (_, some e) => (Outcome.err e, w, a)
    | (none, none) => (Outcome.panic, w, a)
    | (some bk, none) => (Outcome.ok (), delKey bk (itob id) w, a))

/-- GetByID from the generic engine (part_002): raw point read through
GetRawByID, then unmarshal. -/
def GetByID (id : Int) (ser : Service) (s : DBState) : Outcome Model × DBState :=
  match GetRawByID id ser.bucketName s.store ⟨s.nextTx, s.events⟩ with
  | (Outcome.err e, a) => (Outcome.err e, ⟨s.store, a.nextTx, a.events⟩)
  | (Outcome.panic, a) => (Outcome.panic, ⟨s.store, a.nextTx, a.events⟩)
  | (Outcome.ok v, a) =>
    match ser.Unmarshal v with
    | Except.error e => (Outcome.err e, ⟨s.store, a.nextTx, a.events⟩)
    | Except.ok m => (Outcome.ok m, ⟨s.store, a.nextTx, a.events⟩)

/-- Field access on a marshalled JSON object (first binding wins; the
encoders below never produce duplicate keys). -/
def jLookup : List (String × Json) → String → Option Json
  | [], _ => none
  | (k, v) :: rest, key => if k = key then some v else jLookup rest key

/-- The Version field of a stored JSON value, when there is one. -/
def jVersion (j : Json) : Option Int :=
  match j with
  | Json.obj fs =>
    match jLookup fs "Version" with
    | some (Json.num n) => some n
    | _ => none
  | _ => none

/-- Decode an integer field: a missing or null field keeps the zero value
of a freshly allocated Go struct. -/
def decNum (o : Option Json) : Except Err Int :=
  match o with
  | none => Except.ok 0
  | some Json.null => Except.ok 0
  | some (Json.num n) => Except.ok n
  | some _ => Except.error (Err.jsonDecode "number")

/-- Decode an optional integer field (a Go int pointer). -/
def decOptNum (o : Option Json) : Except Err (Option Int) :=
  match o with
  | none => Except.ok none
  | some Json.null => Except.ok none
  | some (Json.num n) => Except.ok (some n)
  | some _ => Except.error (Err.jsonDecode "number")

/-- Decode a string field: missing or null keeps the empty string. -/
def decStr (o : Option Json) : Except Err String :=
  match o with
  | none => Except.ok ""
  | some Json.null => Except.ok ""
  | some (Json.str s) => Except.ok s
  | some _ => Except.error (Err.jsonDecode "string")

/-- Decode an optional string field (a Go string pointer). -/
def decOptStr (o : Option Json) : Except Err (Option String) :=
  match o with
  | none => Except.ok none
  | some Json.null => Except.ok none
  | some (Json.str s) => Except.ok (some s)
  | some _ => Except.error (Err.jsonDecode "string")

/-- Decode an optional time field (a Go time.Time pointer). -/
def decTime (o : Option Json) : Except Err (Option GoTime) :=
  match o with
  | none => Except.ok none
  | some Json.null => Except.ok none
  | some (Json.str s) => Except.ok (some ⟨s⟩)
  | some _ => Except.error (Err.jsonDecode "time")

def strMapJson (l : List (String × String)) : Json :=
  Json.obj (l.map (fun p => (p.1, Json.str p.2)))

def decStrPairs : List (String × Json) → Except Err (List (String × String))
  | [] => Except.ok []
  | (k, Json.str v) :: rest =>
    match decStrPairs rest with
    | Except.ok l => Except.ok ((k, v) :: l)
    | Except.error e => Except.error e
  | _ :: _ => Except.error (Err.jsonDecode "string map")

/-- Decode a map[string]string field: missing or null keeps the nil map. -/
def decStrMap (o : Option Json) : Except Err (List (String × String)) :=
  match o with
  | none => Except.ok []
  | some Json.null => Except.ok []
  | some (Json.obj fs) => decStrPairs fs
  | some _ => Except.error (Err.jsonDecode "string map")

def optStrJson : Option String → Json
  | none => Json.null
  | some s => Json.str s

def optNumJson : Option Int → Json
  | none => Json.null
  | some n => Json.num n

def timeJson : Option GoTime → Json
  | none => Json.null
  | some t => Json.str t.rep

def seasonJson (sn : Season) : Json :=
  Json.obj [("Quarter", optNumJson sn.Quarter), ("Year", optNumJson sn.Year)]

/-- Decode the SeasonPremiered field. -/
def decSeason (o : Option Json) : Except Err Season :=
  match o with
  | none => Except.ok ⟨none, none⟩
  | some Json.null => Except.ok ⟨none, none⟩
  | some (Json.obj fs) =>
    match decOptNum (jLookup fs "Quarter") with
    | Except.error e => Except.error e
    | Except.ok q =>
      match decOptNum (jLookup fs "Year") with
      | Except.error e => Except.error e
      | Except.ok y => Except.ok ⟨q, y⟩
  | some _ => Except.error (Err.jsonDecode "season")

/-- Modelled from the spec: the canonical JSON form of the opaque Info
record (its Go declaration is outside the sources here). -/
def infoJson (i : Info) : Json := Json.str i.Text

def infoListJson (l : List Info) : Json := Json.arr (l.map infoJson)

def decInfoItems : List Json → Except Err (List Info)
  | [] => Except.ok []
  | Json.str s :: rest =>
    match decInfoItems rest with
    | Except.ok l => Except.ok (⟨s⟩ :: l)
    | Except.error e => Except.error e
  | _ :: _ => Except.error (Err.jsonDecode "info")

def decInfoList (o : Option Json) : Except Err (List Info) :=
  match o with
  | none => Except.ok []
  | some Json.null => Except.ok []
  | some (Json.arr xs) => decInfoItems xs
  | some _ => Except.error (Err.jsonDecode "info list")

/-- AssertType of MediaService: nil check then type assertion. -/
def assertMedia : Model → Except Err Media
  | Model.nil => Except.error Err.nilModel
  | Model.media md => Except.ok md
  | _ => Except.error (Err.wrongType "Media")

/-- assertType of PersonService. -/
def assertPerson : Model → Except Err Person
  | Model.nil => Except.error Err.nilModel
  | Model.person p => Except.ok p
  | _ => Except.error (Err.wrongType "Person")

/-- assertType of MediaRelationService. -/
def assertMediaRelation : Model → Except Err MediaRelation
  | Model.nil => Except.error Err.nilModel
  | Model.mediaRelation mr => Except.ok mr
  | _ => Except.error (Err.wrongType "MediaRelation")

/-- MediaService.Clean: trims Type and Source, clamps a quarter above 4
to 0. -/
def MediaClean (m : Model) : Except Err Model :=
  match assertMedia m with
  | Except.error e => Except.error e
  | Except.ok e =>
    let e1 := { e with Typ := e.Typ.map goTrim, Source := e.Source.map goTrim }
    let e2 :=
      match e1.SeasonPremiered.Quarter with
      | some q =>
        if q > 4 then
          { e1 with SeasonPremiered := { e1.SeasonPremiered with Quarter := some 0 } }
        else e1
      | none => e1
    Except.ok (Model.media e2)

/-- MediaService.Validate: only the runtime type assertion. -/
def MediaValidate (m : Model) (_ : Store) (a : Aux) : Outcome Unit × Aux :=
  match assertMedia m with
  | Except.error e => (Outcome.err e, a)
  | Except.ok _ => (Outcome.ok (), a)

/-- MediaService.Initialize: sets ID and resets Version to 0. -/
def MediaInit (m : Model) (id : Int) : Except Err Model :=
  match assertMedia m with
  | Except.error e => Except.error e
  | Except.ok md => Except.ok (Model.media { md with ID := id, Version := 0 })

/-- MediaService.PersistOldProperties: new Version is old Version + 1
(a wrapping Go int addition). -/
def MediaPersistOld (n o : Model) : Except Err Model :=
  match assertMedia n with
  | Except.error e => Except.error e
  | Except.ok nm =>
    match assertMedia o with
    | Except.error e => Except.error e
    | Except.ok om => Except.ok (Model.media { nm with Version := goInc om.Version })

/-- The JSON object MediaService.Marshal produces for a Media value (the
embedded nil Model interface field marshals as null). -/
def MediaMarshalJ (md : Media) : Json :=
  Json.obj [("ID", Json.num md.ID), ("Titles", strMapJson md.Titles),
    ("Synopses", strMapJson md.Synopses), ("Background", strMapJson md.Background),
    ("StartDate", timeJson md.StartDate), ("EndDate", timeJson md.EndDate),
    ("SeasonPremiered", seasonJson md.SeasonPremiered),
    ("Type", optStrJson md.Typ), ("Source", optStrJson md.Source),
    ("Version", Json.num md.Version), ("Model", Json.null)]

def MediaMarshal (m : Model) : Except Err Json :=
  match assertMedia m with
  | Except.error e => Except.error e
  | Except.ok md => Except.ok (MediaMarshalJ md)

/-- MediaService.Unmarshal: decodes each field by name, keeping Go zero
values for missing or null fields. -/
def MediaUnmarshalJ (j : Json) : Except Err Media :=
  match j with
  | Json.obj fs => do
    let id ← decNum (jLookup fs "ID")
    let titles ← decStrMap (jLookup fs "Titles")
    let synopses ← decStrMap (jLookup fs "Synopses")
    let background ← decStrMap (jLookup fs "Background")
    let startDate ← decTime (jLookup fs "StartDate")
    let endDate ← decTime (jLookup fs "EndDate")
    let season ← decSeason (jLookup fs "SeasonPremiered")
    let typ ← decOptStr (jLookup fs "Type")
    let source ← decOptStr (jLookup fs "Source")
    let version ← decNum (jLookup fs "Version")
    Except.ok ⟨id, titles, synopses, background, startDate, endDate, season,
      typ, source, version⟩
  | _ => Except.error (Err.jsonDecode "Media")

def MediaUnmarshal (j : Json) : Except Err Model :=
  match MediaUnmarshalJ j with
  | Except.error e => Except.error e
  | Except.ok md => Except.ok (Model.media md)

/-- MediaService from internal/data/main.go as a Service value. -/
def mediaService : Service :=
  ⟨"Media", MediaClean, MediaValidate, MediaInit, MediaPersistOld,
    MediaMarshal, MediaUnmarshal⟩

/-- PersonService.Clean: cleans both Info lists. -/
def PersonClean (m : Model) : Except Err Model :=
  match assertPerson m with
  | Except.error e => Except.error e
  | Except.ok e =>
    match infoListClean e.Names with
    | Except.error e1 => Except.error e1
    | Except.ok names =>
      match infoListClean e.Information with
      | Except.error e1 => Except.error e1
      | Except.ok information =>
        Except.ok (Model.person { e with Names := names, Information := information })

/-- PersonService.Validate: only the runtime type assertion. -/
def PersonValidate (m : Model) (_ : Store) (a : Aux) : Outcome Unit × Aux :=
  match assertPerson m with
  | Except.error e => (Outcome.err e, a)
  | Except.ok _ => (Outcome.ok (), a)

/-- PersonService.Initialize: sets ID and resets Version to 0. -/
def PersonInit (m : Model) (id : Int) : Except Err Model :=
  match assertPerson m with
  | Except.error e => Except.error e
  | Except.ok p => Except.ok (Model.person { p with ID := id, Version := 0 })

/-- PersonService.PersistOldProperties: new Version is old Version + 1
(a wrapping Go int addition). -/
def PersonPersistOld (n o : Model) : Except Err Model :=
  match assertPerson n with
  | Except.error e => Except.error e
  | Except.ok np =>
    match assertPerson o with
    | Except.error e => Except.error e
    | Except.ok op => Except.ok (Model.person { np with Version := goInc op.Version })

/-- The JSON object PersonService.Marshal produces for a Person value. -/
def PersonMarshalJ (p : Person) : Json :=
  Json.obj [("ID", Json.num p.ID), ("Names", infoListJson p.Names),
    ("Information", infoListJson p.Information),
    ("Version", Json.num p.Version), ("Model", Json.null)]

def PersonMarshal (m : Model) : Except Err Json :=
  match assertPerson m with
  | Except.error e => Except.error e
  | Except.ok p => Except.ok (PersonMarshalJ p)

def PersonUnmarshalJ (j : Json) : Except Err Person :=
  match j with
  | Json.obj fs => do
    let id ← decNum (jLookup fs "ID")
    let names ← decInfoList (jLookup fs "Names")
    let information ← decInfoList (jLookup fs "Information")
    let version ← decNum (jLookup fs "Version")
    Except.ok ⟨id, names, information, version⟩
  | _ => Except.error (Err.jsonDecode "Person")

def PersonUnmarshal (j : Json) : Except Err Model :=
  match PersonUnmarshalJ j with
  | Except.error e => Except.error e
  | Except.ok p => Except.ok (Model.person p)

/-- PersonService from internal/data/person.go as a Service value. -/
def personService : Service :=
  ⟨"Person", PersonClean, PersonValidate, PersonInit, PersonPersistOld,
    PersonMarshal, PersonUnmarshal⟩

/-- MediaRelationService.Clean: trims the Relationship string. -/
def MediaRelationClean (m : Model) : Except Err Model :=
  match assertMediaRelation m with
  | Except.error e => Except.error e
  | Except.ok e =>
    Except.ok (Model.mediaRelation { e with Relationship := goTrim e.Relationship })

/-- MediaRelationService.Validate from internal/data/media_relation.go:
after the type assertion it opens its own read-only transaction on the
database (ser.DB.View) and performs the two referential lookups of
OwnerID and RelatedID in the Media bucket inside that transaction. -/
def MediaRelationValidate (m : Model) (st : Store) (a : Aux) : Outcome Unit × Aux :=
  match assertMediaRelation m with
  | Except.error e => (Outcome.err e, a)
  | Except.ok e =>
    dbView st a (fun t store =>
      match Bucket "Media" t store with
      | (_, some er) => (Outcome.err er, [])
      | (mb, none) =>
        match bget e.OwnerID mb with
        | (Outcome.err er, evs) => (Outcome.err er, evs)
        | (Outcome.panic, evs) => (Outcome.panic, evs)
        | (Outcome.ok _, evs1) =>
          match bget e.RelatedID mb with
          | (Outcome.err er, evs2) => (Outcome.err er, evs1 ++ evs2)
          | (Outcome.panic, evs2) => (Outcome.panic, evs1 ++ evs2)
          | (Outcome.ok _, evs2) => (Outcome.ok (), evs1 ++ evs2))

/-- MediaRelationService.Initialize: sets ID and resets Version to 0. -/
def MediaRelationInit (m : Model) (id : Int) : Except Err Model :=
  match assertMediaRelation m with
  | Except.error e => Except.error e
  | Except.ok mr => Except.ok (Model.mediaRelation { mr with ID := id, Version := 0 })

/-- MediaRelationService.PersistOldProperties: new Version is old
Version + 1. -/
def MediaRelationPersistOld (n o : Model) : Except Err Model :=
  match assertMediaRelation n with
  | Except.error e => Except.error e
  | Except.ok nm =>
    match assertMediaRelation o with
    | Except.error e => Except.error e
    | Except.ok om =>
      Except.ok (Model.mediaRelation { nm with Version := goInc om.Version })

/-- The JSON object MediaRelationService.Marshal produces. -/
def MediaRelationMarshalJ (mr : MediaRelation) : Json :=
  Json.obj [("ID", Json.num mr.ID), ("OwnerID", Json.num mr.OwnerID),
    ("RelatedID", Json.num mr.RelatedID),
    ("Relationship", Json.str mr.Relationship), ("Version", Json.num mr.Version)]

def MediaRelationMarshal (m : Model) : Except Err Json :=
  match assertMediaRelation m with
  | Except.error e => Except.error e
  | Except.ok mr => Except.ok (MediaRelationMarshalJ mr)

def MediaRelationUnmarshalJ (j : Json) : Except Err MediaRelation :=
  match j with
  | Json.obj fs => do
    let id ← decNum (jLookup fs "ID")
    let ownerID ← decNum (jLookup fs "OwnerID")
    let relatedID ← decNum (jLookup fs "RelatedID")
    let relationship ← decStr (jLookup fs "Relationship")
    let version ← decNum (jLookup fs "Version")
    Except.ok ⟨id, ownerID, relatedID, relationship, version⟩
  | _ => Except.error (Err.jsonDecode "MediaRelation")

def MediaRelationUnmarshal (j : Json) : Except Err Model :=
  match MediaRelationUnmarshalJ j with
  | Except.error e => Except.error e
  | Except.ok mr => Except.ok (Model.mediaRelation mr)

/-- MediaRelationService from internal/data/media_relation.go as a
Service value. -/
def mediaRelationService : Service :=
  ⟨"MediaRelation", MediaRelationClean, MediaRelationValidate, MediaRelationInit,
    MediaRelationPersistOld, MediaRelationMarshal, MediaRelationUnmarshal⟩

/-- Episode from pkg/data/episode.go.  It has no Version field. -/
structure Episode where
  ID : Int
  MediaID : Int
  Titles : List Info
  Date : Option GoTime
  Synopses : List Info
  Duration : Nat
  Filler : Bool
  Recap : Bool
deriving DecidableEq

/-- The JSON object json.Marshal produces for an Episode: note there is
no Version key at all. -/
def EpisodeMarshalJ (ep : Episode) : Json :=
  Json.obj [("ID", Json.num ep.ID), ("MediaID", Json.num ep.MediaID),
    ("Titles", infoListJson ep.Titles), ("Date", timeJson ep.Date),
    ("Synopses", infoListJson ep.Synopses), ("Duration", Json.num ep.Duration),
    ("Filler", Json.bool ep.Filler), ("Recap", Json.bool ep.Recap)]

def decBool (o : Option Json) : Except Err Bool :=
  match o with
  | none => Except.ok false
  | some Json.null => Except.ok false
  | some (Json.bool b) => Except.ok b
  | some _ => Except.error (Err.jsonDecode "bool")

/-- Decode a uint field (Duration). -/
def decUNum (o : Option Json) : Except Err Nat :=
  match o with
  | none => Except.ok 0
  | some Json.null => Except.ok 0
  | some (Json.num n) => if n < 0 then Except.error (Err.jsonDecode "uint") else Except.ok n.toNat
  | some _ => Except.error (Err.jsonDecode "uint")

def EpisodeUnmarshalJ (j : Json) : Except Err Episode :=
  match j with
  | Json.obj fs => do
    let id ← decNum (jLookup fs "ID")
    let mediaID ← decNum (jLookup fs "MediaID")
    let titles ← decInfoList (jLookup fs "Titles")
    let date ← decTime (jLookup fs "Date")
    let synopses ← decInfoList (jLookup fs "Synopses")
    let duration ← decUNum (jLookup fs "Duration")
    let filler ← decBool (jLookup fs "Filler")
    let recap ← decBool (jLookup fs "Recap")
    Except.ok ⟨id, mediaID, titles, date, synopses, duration, filler, recap⟩
  | _ => Except.error (Err.jsonDecode "Episode")

/-- EpisodeUpdate from pkg/data/episode.go: one write transaction that
checks the episode exists, then marshals and stores the caller's episode
unchanged.  No property of the old stored value is carried over (the
source comment says none yet), in particular nothing like a version is
maintained. -/
def EpisodeUpdate (ep : Episode) (s : DBState) : Outcome Episode × DBState :=
  dbUpdate s (fun t _ w a =>
    match Bucket "Episode" t w with
    | (_, some e) => (Outcome.err e, w, a)
    | (none, none) => (Outcome.err Err.nilBucket, w, a)
    | (some bk, none) =>
      match bget ep.ID (some bk) with
      | (Outcome.err e, evs) => (Outcome.err e, w, { a with events := a.events ++ evs })
      | (Outcome.panic, evs) => (Outcome.panic, w, { a with events := a.events ++ evs })
      | (Outcome.ok _, evs) =>
        let a1 : Aux := { a with events := a.events ++ evs }
        match putKey bk (itob ep.ID) (EpisodeMarshalJ ep) w a1 with
        | (w1, a2) => (Outcome.ok ep, w1, a2))

/-- MediaProducer from pkg/data (same file group as episode.go). -/
structure MediaProducer where
  ID : Int
  MediaID : Int
  ProducerID : Int
  Role : String
  Version : Int
deriving DecidableEq

def MediaProducerMarshalJ (mp : MediaProducer) : Json :=
  Json.obj [("ID", Json.num mp.ID), ("MediaID", Json.num mp.MediaID),
    ("ProducerID", Json.num mp.ProducerID), ("Role", Json.str mp.Role),
    ("Version", Json.num mp.Version)]

def MediaProducerUnmarshalJ (j : Json) : Except Err MediaProducer :=
  match j with
  | Json.obj fs => do
    let id ← decNum (jLookup fs "ID")
    let mediaID ← decNum (jLookup fs "MediaID")
    let producerID ← decNum (jLookup fs "ProducerID")
    let role ← decStr (jLookup fs "Role")
    let version ← decNum (jLookup fs "Version")
    Except.ok ⟨id, mediaID, producerID, role, version⟩
  | _ => Except.error (Err.jsonDecode "MediaProducer")

/-- MediaProducerCreate from pkg/data: one write transaction that checks
the referenced Media and Producer exist (in the same transaction), takes
the next sequence number, assigns the ID and stores the caller's value.
The caller's Version field is stored unchanged: nothing resets it to 0.
A nil MediaProducer bucket handle would be dereferenced by
b.NextSequence. -/
def MediaProducerCreate (mp : MediaProducer) (s : DBState) : Outcome MediaProducer × DBState :=
  dbUpdate s (fun t _ w a =>
    match Bucket "MediaProducer" t w with
    | (_, some e) => (Outcome.err e, w, a)
    | (b, none) =>
      match Bucket "Media" t w with
      | (_, some e) => (Outcome.err e, w, a)
      | (mb, none) =>
        match bget mp.MediaID mb with
        | (Outcome.err e, evs) => (Outcome.err e, w, { a with events := a.events ++ evs })
        | (Outcome.panic, evs) => (Outcome.panic, w, { a with events := a.events ++ evs })
        | (Outcome.ok _, evs1) =>
          match Bucket "Producer" t w with
          | (_, some e) => (Outcome.err e, w, { a with events := a.events ++ evs1 })
          | (pb, none) =>
            match bget mp.ProducerID pb with
            | (Outcome.err e, evs2) =>
              (Outcome.err e, w, { a with events := a.events ++ evs1 ++ evs2 })
            | (Outcome.panic, evs2) =>
              (Outcome.panic, w, { a with events := a.events ++ evs1 ++ evs2 })
            | (Outcome.ok _, evs2) =>
              let a1 : Aux := { a with events := a.events ++ evs1 ++ evs2 }
              match b with
              | none => (Outcome.panic, w, a1)
              | some bk =>
                match NextSequence bk w with
                | (idNat, w1) =>
                  let mp1 : MediaProducer := { mp with ID := i64 idNat }
                  match putKey bk (itob mp1.ID) (MediaProducerMarshalJ mp1) w1 a1 with
                  | (w2, a2) => (Outcome.ok mp1, w2, a2))

/-- The zero MediaProducer value (a freshly declared Go struct). -/
def zeroMediaProducer : MediaProducer := ⟨0, 0, 0, "", 0⟩

/-- MediaProducerUpdate from pkg/data: one write transaction that reads
the old stored value, unmarshals it into a zero struct while discarding
the unmarshal error, sets the new Version to old Version + 1 (a wrapping
Go int addition), and stores the result. -/
def MediaProducerUpdate (mp : MediaProducer) (s : DBState) : Outcome MediaProducer × DBState :=
  dbUpdate s (fun t _ w a =>
    match Bucket "MediaProducer" t w with
    | (_, some e) => (Outcome.err e, w, a)
    | (none, none) => (Outcome.err Err.nilBucket, w, a)
    | (some bk, none) =>
      match bget mp.ID (some bk) with
      | (Outcome.err e, evs) => (Outcome.err e, w, { a with events := a.events ++ evs })
      | (Outcome.panic, evs) => (Outcome.panic, w, { a with events := a.events ++ evs })
      | (Outcome.ok o, evs) =>
        let a1 : Aux := { a with events := a.events ++ evs }
        let old : MediaProducer :=
          match MediaProducerUnmarshalJ o with
          | Except.ok x => x
          | Except.error _ => zeroMediaProducer
        let mp1 : MediaProducer := { mp with Version := goInc old.Version }
        match putKey bk (itob mp.ID) (MediaProducerMarshalJ mp1) w a1 with
        | (w1, a2) => (Outcome.ok mp1, w1, a2))

/-- WatchStatus.MarshalJSON from internal/data/user_media.go: the four
named statuses map to their strings, every other underlying int value is
an error. -/
def WatchStatusMarshalJSON (ws : Int) : Except Err Json :=
  if ws = 0 then Except.ok (Json.str "Completed")
  else if ws = 1 then Except.ok (Json.str "Planning")
  else if ws = 2 then Except.ok (Json.str "Dropped")
  else if ws = 3 then Except.ok (Json.str "Hold")
  else Except.error Err.invalidWatchStatus

/-- WatchStatus.UnmarshalJSON from internal/data/user_media.go: expects a
JSON string holding one of the four status names. -/
def WatchStatusUnmarshalJSON (j : Json) : Except Err Int :=
  match j with
  | Json.str s =>
    if s = "Completed" then Except.ok 0
    else if s = "Planning" then Except.ok 1
    else if s = "Dropped" then Except.ok 2
    else if s = "Hold" then Except.ok 3
    else Except.error Err.invalidWatchStatus
  | _ => Except.error (Err.jsonDecode "WatchStatus")

/-- Value stored under a key of a bucket, as seen between operations. -/
def storedAt (s : DBState) (bucketName : String) (key : List Nat) : Option Json :=
  match storeFind s.store bucketName with
  | none => none
  | some bd => entryFind bd.entries key

/-- A concrete stored Media value with identifier 1, used by the concrete
runs below. -/
def mediaJson1 : Json :=
  MediaMarshalJ ⟨1, [("en", "Show A")], [], [], none, none, ⟨none, none⟩, none, none, 0⟩

/-- A caller-supplied MediaRelation whose two foreign identifiers point at
Media 1 (its Version field 5 is caller-chosen garbage). -/
def c1MR : MediaRelation := ⟨0, 1, 1, "Sequel", 5⟩

/-- A store holding Media 1 and an empty MediaRelation bucket. -/
def c1Store : Store := [("Media", ⟨1, [(itob 1, mediaJson1)]⟩), ("MediaRelation", ⟨0, []⟩)]

/-- The database state after creating c1MR, transaction counter started at 0. -/
def c1Run : DBState :=
  (Create (Model.mediaRelation c1MR) mediaRelationService ⟨c1Store, 0, []⟩).2

/-- The expected created model for the c1 run. -/
def c1M2 : Model := Model.mediaRelation ⟨1, 1, 1, "Sequel", 0⟩

/-- A stored episode with identifier 1. -/
def c2EpOld : Episode := ⟨1, 1, [], none, [], 20, false, false⟩

/-- A caller-supplied replacement episode for identifier 1. -/
def c2EpNew : Episode := ⟨1, 1, [], none, [], 42, true, false⟩

/-- A store holding episode 1. -/
def c2Store : Store := [("Episode", ⟨1, [(itob 1, EpisodeMarshalJ c2EpOld)]⟩)]

/-- The database state after updating episode 1 with c2EpNew. -/
def c2Run : DBState := (EpisodeUpdate c2EpNew ⟨c2Store, 0, []⟩).2

/-- The previously stored MediaRelation for the c2 witness run. -/
def c2wOldMR : MediaRelation := ⟨1, 1, 1, "x", 3⟩

/-- The caller-supplied replacement, with a garbage Version of 99. -/
def c2wNewMR : MediaRelation := ⟨1, 1, 1, "y", 99⟩

/-- A store holding Media 1 and MediaRelation 1. -/
def c2wStore : Store :=
  [("Media", ⟨1, [(itob 1, mediaJson1)]⟩),
   ("MediaRelation", ⟨1, [(itob 1, MediaRelationMarshalJ c2wOldMR)]⟩)]

def c2wS : DBState := ⟨c2wStore, 0, []⟩

def c2wRun : Outcome Model × DBState :=
  Update (Model.mediaRelation c2wNewMR) mediaRelationService c2wS

/-- The expected updated model: Version 3 + 1 = 4, not the caller's 99. -/
def c2wM2 : Model := Model.mediaRelation ⟨1, 1, 1, "y", 4⟩

/-- A caller-supplied MediaProducer with a garbage Version of 7. -/
def c3MP : MediaProducer := ⟨0, 1, 1, "Studio", 7⟩

/-- An arbitrary stored Producer value with identifier 1. -/
def producerJson1 : Json := Json.obj [("ID", Json.num 1)]

/-- A store with an empty MediaProducer bucket, Media 1 and Producer 1. -/
def c3Store : Store :=
  [("MediaProducer", ⟨0, []⟩), ("Media", ⟨1, [(itob 1, mediaJson1)]⟩),
   ("Producer", ⟨1, [(itob 1, producerJson1)]⟩)]

def c3Run : Outcome MediaProducer × DBState := MediaProducerCreate c3MP ⟨c3Store, 0, []⟩

/-- A store with only an empty Media bucket. -/
def c3wStore : Store := [("Media", ⟨0, []⟩)]

/-- A caller-supplied Media with a garbage Version of 9. -/
def c3wMD : Media := ⟨0, [], [], [], none, none, ⟨none, none⟩, none, none, 9⟩

def c3wRun : Outcome Model × DBState :=
  Create (Model.media c3wMD) mediaService ⟨c3wStore, 0, []⟩

/-- The expected created model: identifier 1 from the sequence, Version 0. -/
def c3wM2 : Model := Model.media ⟨1, [], [], [], none, none, ⟨none, none⟩, none, none, 0⟩

/-- A MediaRelation whose RelatedID 99 does not exist. -/
def c4MR : MediaRelation := ⟨0, 1, 99, "x", 0⟩

def c4Run : Outcome Model × DBState :=
  Create (Model.mediaRelation c4MR) mediaRelationService ⟨c1Store, 0, []⟩

/-- A store with only an empty Media bucket, for delete and lookup runs. -/
def c5Store : Store := [("Media", ⟨0, []⟩)]

/-- A caller-supplied Media with identifier 5, which is not stored. -/
def c6MD : Media := ⟨5, [], [], [], none, none, ⟨none, none⟩, none, none, 0⟩

theorem lt_iff_div_mod (B m n : Nat) (hB : 0 < B) :
    m < n ↔ (m / B < n / B ∨ (m / B = n / B ∧ m % B < n % B)) := by
  constructor
  · intro h
    rcases Nat.lt_or_ge (m / B) (n / B) with h1 | h1
    · exact Or.inl h1
    · right
      have h3 : m / B ≤ n / B := Nat.div_le_div_right (Nat.le_of_lt h)
      have h4 : m / B = n / B := Nat.le_antisymm h3 h1
      refine ⟨h4, ?_⟩
      have hm := Nat.div_add_mod m B
      rw [h4] at hm
      have hn := Nat.div_add_mod n B
      omega
  · intro h
    rcases h with h1 | ⟨h1, h2⟩
    · have hstep : m / B + 1 ≤ n / B := h1
      have hmul : B * (m / B + 1) ≤ B * (n / B) := Nat.mul_le_mul_left B hstep
      have hm := Nat.div_add_mod m B
      have hn := Nat.div_add_mod n B
      have hmod : m % B < B := Nat.mod_lt _ hB
      have hx : B * (m / B + 1) = B * (m / B) + B := by ring
      omega
    · have hm := Nat.div_add_mod m B
      rw [h1] at hm
      have hn := Nat.div_add_mod n B
      omega

theorem beBytes_inj : ∀ (k m n : Nat), m < 256 ^ k → n < 256 ^ k →
    beBytes k m = beBytes k n → m = n := by
  intro k
  induction k with
  | zero =>
    intro m n hm hn _
    simp only [pow_zero] at hm hn
    omega
  | succ k ih =>
    intro m n hm hn h
    have hB : 0 < 256 ^ k := pow_pos (by norm_num) k
    have hmd : m / 256 ^ k < 256 := by
      rw [Nat.div_lt_iff_lt_mul hB]
      rw [pow_succ] at hm
      omega
    have hnd : n / 256 ^ k < 256 := by
      rw [Nat.div_lt_iff_lt_mul hB]
      rw [pow_succ] at hn
      omega
    simp only [beBytes, List.cons.injEq, Nat.mod_eq_of_lt hmd, Nat.mod_eq_of_lt hnd] at h
    have hm2 : m % 256 ^ k < 256 ^ k := Nat.mod_lt _ hB
    have hn2 : n % 256 ^ k < 256 ^ k := Nat.mod_lt _ hB
    have htail := ih _ _ hm2 hn2 h.2
    have hm1 := Nat.div_add_mod m (256 ^ k)
    rw [h.1, htail] at hm1
    have hn1 := Nat.div_add_mod n (256 ^ k)
    omega

theorem beBytes_lexLt : ∀ (k m n : Nat), m < 256 ^ k → n < 256 ^ k →
    (lexLt (beBytes k m) (beBytes k n) = true ↔ m < n) := by
  intro k
  induction k with
  | zero =>
    intro m n hm hn
    simp only [pow_zero] at hm hn
    simp only [beBytes, lexLt, Bool.false_eq_true, false_iff]
    omega
  | succ k ih =>
    intro m n hm hn
    have hB : 0 < 256 ^ k := pow_pos (by norm_num) k
    have hmd : m / 256 ^ k < 256 := by
      rw [Nat.div_lt_iff_lt_mul hB]
      rw [pow_succ] at hm
      omega
    have hnd : n / 256 ^ k < 256 := by
      rw [Nat.div_lt_iff_lt_mul hB]
      rw [pow_succ] at hn
      omega
    have hm2 : m % 256 ^ k < 256 ^ k := Nat.mod_lt _ hB
    have hn2 : n % 256 ^ k < 256 ^ k := Nat.mod_lt _ hB
    simp only [beBytes, lexLt, Nat.mod_eq_of_lt hmd, Nat.mod_eq_of_lt hnd]
    by_cases hlt : m / 256 ^ k < n / 256 ^ k
    · simp only [if_pos hlt, true_iff]
      exact (lt_iff_div_mod (256 ^ k) m n hB).2 (Or.inl hlt)
    · by_cases hgt : n / 256 ^ k < m / 256 ^ k
      · simp only [if_neg hlt, if_pos hgt, Bool.false_eq_true, false_iff]
        intro hmn
        rcases (lt_iff_div_mod (256 ^ k) m n hB).1 hmn with h | ⟨h, _⟩ <;> omega
      · have heq : m / 256 ^ k = n / 256 ^ k := by omega
        simp only [if_neg hlt, if_neg hgt, ih _ _ hm2 hn2,
          lt_iff_div_mod (256 ^ k) m n hB]
        omega

theorem u64_i64 (n : Nat) (h : n < 2 ^ 64) : u64 (i64 n) = n := by
  have h64 : (2 : Int) ^ 64 = 18446744073709551616 := by norm_num
  have h63 : (2 : Nat) ^ 63 = 9223372036854775808 := by norm_num
  have hn64 : (2 : Nat) ^ 64 = 18446744073709551616 := by norm_num
  simp only [u64, i64, h64, h63, hn64] at h ⊢
  split <;> omega

theorem u64_toNat (a : Int) (h0 : 0 ≤ a) (h1 : a < 2 ^ 64) : u64 a = a.toNat := by
  have h64 : (2 : Int) ^ 64 = 18446744073709551616 := by norm_num
  simp only [u64, h64] at h1 ⊢
  omega

theorem pow_conv : (2 : Nat) ^ 64 = 256 ^ 8 := by norm_num

theorem goInc_eq (v : Int) (h1 : -(2 ^ 63) ≤ v) (h2 : v < 2 ^ 63 - 1) :
    goInc v = v + 1 := by
  have hI63 : (2 : Int) ^ 63 = 9223372036854775808 := by norm_num
  have hI64 : (2 : Int) ^ 64 = 18446744073709551616 := by norm_num
  have hN63 : (2 : Nat) ^ 63 = 9223372036854775808 := by norm_num
  have hN64 : (2 : Nat) ^ 64 = 18446744073709551616 := by norm_num
  simp only [goInc, u64, i64, hI63, hI64, hN63, hN64] at h1 h2 ⊢
  split <;> omega

theorem storeFind_set_self (st : Store) (name : String) (bd bd1 : BucketData)
    (h : storeFind st name = some bd) :
    storeFind (storeSet st name bd1) name = some bd1 := by
  induction st with
  | nil => simp [storeFind] at h
  | cons hd tl ih =>
    obtain ⟨n, bd0⟩ := hd
    by_cases hn : n = name
    · simp [storeFind, storeSet, hn]
    · simp only [storeFind, storeSet, if_neg hn] at h ⊢
      exact ih h

theorem entryFind_del (l : List (List Nat × Json)) (k : List Nat) :
    entryFind (entryDel l k) k = none := by
  induction l with
  | nil => rfl
  | cons hd tl ih =>
    obtain ⟨k0, v0⟩ := hd
    by_cases hk : k0 = k
    · simp only [entryDel, if_pos hk]
      exact ih
    · simp only [entryDel, if_neg hk, entryFind, if_neg hk]
      exact ih

/-- C5: for every integer id, including ids with no stored entity, Delete
succeeds without error whenever the bucket itself exists (the buckets are
created at startup by ConnectDatabase), and afterwards no entity with that
identifier is present in the bucket: delete is idempotent. -/
theorem delete_idempotent (ser : Service) (id : Int) (s : DBState) (bd : BucketData)
    (h : storeFind s.store ser.bucketName = some bd) :
    (Delete id ser s).1 = Outcome.ok () ∧
    storedAt (Delete id ser s).2 ser.bucketName (itob id) = none := by
  simp only [Delete, dbUpdate, Bucket, h, delKey, storedAt]
  constructor
  · trivial
  · simp only [storeFind_set_self s.store ser.bucketName bd _ h]
    exact entryFind_del bd.entries (itob id)

theorem storeSet_storeSet (st : Store) (name : String) (b1 b2 : BucketData) :
    storeSet (storeSet st name b1) name b2 = storeSet st name b2 := by
  induction st with
  | nil => rfl
  | cons hd tl ih =>
    obtain ⟨n, bd0⟩ := hd
    by_cases hn : n = name
    · simp [storeSet, hn]
    · simp only [storeSet, if_neg hn, List.cons.injEq, true_and]
      exact ih


theorem dbUpdate_ok {α : Type} (s : DBState)
    (body : Nat → Store → Store → Aux → Outcome α × Store × Aux) (x : α) (s2 : DBState)
    (h : dbUpdate s body = (Outcome.ok x, s2)) :
    ∃ w a, body s.nextTx s.store s.store ⟨s.nextTx + 1, s.events⟩ = (Outcome.ok x, w, a) ∧
      s2 = ⟨w, a.nextTx, a.events⟩ := by
  unfold dbUpdate at h
  rcases hb : body s.nextTx s.store s.store ⟨s.nextTx + 1, s.events⟩ with ⟨r, w, a⟩
  rw [hb] at h
  cases r with
  | ok y =>
    simp only [Prod.mk.injEq, Outcome.ok.injEq] at h
    exact ⟨w, a, by rw [h.1], h.2.symm⟩
  | err e => simp at h
  | panic => simp at h

theorem dbUpdate_err {α : Type} (s : DBState)
    (body : Nat → Store → Store → Aux → Outcome α × Store × Aux) (e : Err) (s2 : DBState)
    (h : dbUpdate s body = (Outcome.err e, s2)) :
    s2.store = s.store := by
  unfold dbUpdate at h
  rcases hb : body s.nextTx s.store s.store ⟨s.nextTx + 1, s.events⟩ with ⟨r, w, a⟩
  rw [hb] at h
  cases r with
  | ok y => simp at h
  | err e1 =>
    simp only [Prod.mk.injEq, Outcome.err.injEq] at h
    rw [← h.2]
  | panic => simp at h

theorem dbUpdate_panic {α : Type} (s : DBState)
    (body : Nat → Store → Store → Aux → Outcome α × Store × Aux) (s2 : DBState)
    (h : dbUpdate s body = (Outcome.panic, s2)) :
    s2.store = s.store := by
  unfold dbUpdate at h
  rcases hb : body s.nextTx s.store s.store ⟨s.nextTx + 1, s.events⟩ with ⟨r, w, a⟩
  rw [hb] at h
  cases r with
  | ok y => simp at h
  | err e1 => simp at h
  | panic =>
    simp only [Prod.mk.injEq] at h
    rw [← h.2]


theorem Create_ok (ser : Service) (m m2 : Model) (s s2 : DBState)
    (h : Create m ser s = (Outcome.ok m2, s2)) :
    ∃ m1 a bd buf,
      ser.Clean m = Except.ok m1 ∧
      ser.Validate m1 s.store ⟨s.nextTx, s.events⟩ = (Outcome.ok (), a) ∧
      storeFind s.store ser.bucketName = some bd ∧
      ser.initModel m1 (i64 ((bd.seq + 1) % 2 ^ 64)) = Except.ok m2 ∧
      ser.Marshal m2 = Except.ok buf ∧
      s2.store = storeSet s.store ser.bucketName
        ⟨(bd.seq + 1) % 2 ^ 64, entryPut bd.entries (itob (Model.iden m2)) buf⟩ := by
  unfold Create at h
  split at h
  · simp at h
  next m1 hc =>
    split at h
    · simp at h
    · simp at h
    next u a hv =>
      cases u
      obtain ⟨w, a1, hb, hs2⟩ := dbUpdate_ok _ _ _ _ h
      simp only [Bucket] at hb
      cases hf : storeFind s.store ser.bucketName with
      | none => rw [hf] at hb; simp at hb
      | some bd =>
        rw [hf] at hb
        simp only [NextSequence, hf] at hb
        cases hi : ser.initModel m1 (i64 ((bd.seq + 1) % 2 ^ 64)) with
        | error e => rw [hi] at hb; simp at hb
        | ok m2x =>
          rw [hi] at hb
          simp only [] at hb
          cases hmar : ser.Marshal m2x with
          | error e => rw [hmar] at hb; simp at hb
          | ok buf =>
            rw [hmar] at hb
            simp only [putKey, storeFind_set_self s.store ser.bucketName bd _ hf,
              storeSet_storeSet, Prod.mk.injEq, Outcome.ok.injEq] at hb
            obtain ⟨hm2, hw, ha1⟩ := hb
            subst hm2
            refine ⟨m1, a, bd, buf, hc, hv, rfl, hi, hmar, ?_⟩
            rw [hs2, ← hw]

theorem GetRawByID_ok (id : Int) (bn : String) (st : Store) (a : Aux) (v : Json) (a2 : Aux)
    (h : GetRawByID id bn st a = (Outcome.ok v, a2)) :
    ∃ bd, storeFind st bn = some bd ∧ entryFind bd.entries (itob id) = some v := by
  unfold GetRawByID dbView at h
  simp only [Bucket] at h
  cases hf : storeFind st bn with
  | none => rw [hf] at h; simp [bget] at h
  | some bd =>
    rw [hf] at h
    simp only [bget] at h
    cases he : entryFind bd.entries (itob id) with
    | none => rw [he] at h; simp at h
    | some v1 =>
      rw [he] at h
      simp only [Prod.mk.injEq, Outcome.ok.injEq] at h
      exact ⟨bd, rfl, by rw [he, h.1]⟩

theorem Update_ok (ser : Service) (m m2 : Model) (s s2 : DBState)
    (h : Update m ser s = (Outcome.ok m2, s2)) :
    ∃ m1 v o buf bd,
      ser.Clean m = Except.ok m1 ∧
      storeFind s.store ser.bucketName = some bd ∧
      entryFind bd.entries (itob (Model.iden m1)) = some v ∧
      ser.Unmarshal v = Except.ok o ∧
      ser.PersistOldProperties m1 o = Except.ok m2 ∧
      ser.Marshal m2 = Except.ok buf ∧
      s2.store = storeSet s.store ser.bucketName
        { bd with entries := entryPut bd.entries (itob (Model.iden m2)) buf } := by
  unfold Update at h
  split at h
  · simp at h
  next m1 hc =>
    split at h
    · simp at h
    · simp at h
    next u a hv =>
      cases u
      obtain ⟨w, a1, hb, hs2⟩ := dbUpdate_ok _ _ _ _ h
      rcases hg : GetRawByID (Model.iden m1) ser.bucketName s.store ⟨a.nextTx + 1, a.events⟩
        with ⟨rg, a2⟩
      rw [hg] at hb
      cases rg with
      | err e => simp at hb
      | panic => simp at hb
      | ok v =>
        simp only [] at hb
        obtain ⟨bd, hf, he⟩ := GetRawByID_ok _ _ _ _ _ _ hg
        cases hu : ser.Unmarshal v with
        | error e => rw [hu] at hb; simp at hb
        | ok o =>
          rw [hu] at hb
          simp only [Bucket, hf] at hb
          cases hp : ser.PersistOldProperties m1 o with
          | error e => rw [hp] at hb; simp at hb
          | ok m2x =>
            rw [hp] at hb
            simp only [] at hb
            cases hmar : ser.Marshal m2x with
            | error e => rw [hmar] at hb; simp at hb
            | ok buf =>
              rw [hmar] at hb
              simp only [putKey, hf, Prod.mk.injEq, Outcome.ok.injEq] at hb
              obtain ⟨hm2, hw, ha1⟩ := hb
              subst hm2
              refine ⟨m1, v, o, buf, bd, hc, hf, he, hu, hp, hmar, ?_⟩
              rw [hs2, ← hw]

theorem Create_err (ser : Service) (m : Model) (s s2 : DBState) (e : Err)
    (h : Create m ser s = (Outcome.err e, s2)) : s2.store = s.store := by
  unfold Create at h
  split at h
  · simp only [Prod.mk.injEq] at h
    rw [← h.2]
  · split at h
    · simp only [Prod.mk.injEq] at h
      rw [← h.2]
    · simp at h
    · have hst := dbUpdate_err _ _ _ _ h
      exact hst

theorem Update_err (ser : Service) (m : Model) (s s2 : DBState) (e : Err)
    (h : Update m ser s = (Outcome.err e, s2)) : s2.store = s.store := by
  unfold Update at h
  split at h
  · simp only [Prod.mk.injEq] at h
    rw [← h.2]
  · split at h
    · simp only [Prod.mk.injEq] at h
      rw [← h.2]
    · simp at h
    · have hst := dbUpdate_err _ _ _ _ h
      exact hst

theorem entryFind_put_self (l : List (List Nat × Json)) (k : List Nat) (v : Json) :
    entryFind (entryPut l k v) k = some v := by
  induction l with
  | nil => simp [entryPut, entryFind]
  | cons hd tl ih =>
    obtain ⟨k0, v0⟩ := hd
    by_cases hk : k0 = k
    · simp [entryPut, if_pos hk, entryFind]
    · simp only [entryPut, if_neg hk, entryFind, if_neg hk]
      exact ih

theorem mediaRelation_update_version (mr : MediaRelation) (s s2 : DBState) (m2 : Model)
    (oldJ : Json) (oldMR : MediaRelation)
    (hstored : storedAt s "MediaRelation" (itob mr.ID) = some oldJ)
    (hold : MediaRelationUnmarshalJ oldJ = Except.ok oldMR)
    (hlo : -(2 ^ 63) ≤ oldMR.Version) (hhi : oldMR.Version < 2 ^ 63 - 1)
    (h : Update (Model.mediaRelation mr) mediaRelationService s = (Outcome.ok m2, s2)) :
    ∃ mr2, m2 = Model.mediaRelation mr2 ∧ mr2.Version = oldMR.Version + 1 ∧
      mr2.ID = mr.ID ∧
      storedAt s2 "MediaRelation" (itob mr.ID) = some (MediaRelationMarshalJ mr2) := by
  obtain ⟨m1, v, o, buf, bd, hc, hf, he, hu, hp, hmar, hstore⟩ := Update_ok _ _ _ _ _ h
  simp only [mediaRelationService, MediaRelationClean, assertMediaRelation] at hc
  simp only [Except.ok.injEq] at hc
  subst hc
  simp only [Model.iden] at he hp
  simp only [mediaRelationService] at hf he hu hp hmar hstore
  simp only [storedAt] at hstored
  rw [hf] at hstored
  have hstored2 : entryFind bd.entries (itob mr.ID) = some oldJ := hstored
  rw [hstored2] at he
  simp only [Option.some.injEq] at he
  subst he
  simp only [MediaRelationUnmarshal, hold] at hu
  simp only [Except.ok.injEq] at hu
  subst hu
  simp only [MediaRelationPersistOld, assertMediaRelation, Except.ok.injEq] at hp
  subst hp
  simp only [MediaRelationMarshal, assertMediaRelation, Except.ok.injEq] at hmar
  subst hmar
  refine ⟨_, rfl, goInc_eq oldMR.Version hlo hhi, rfl, ?_⟩
  simp only [storedAt, hstore, Model.iden]
  rw [storeFind_set_self s.store "MediaRelation" bd _ hf]
  exact entryFind_put_self bd.entries (itob mr.ID) _

theorem MediaClean_ok (md : Media) :
    ∃ md1, MediaClean (Model.media md) = Except.ok (Model.media md1) ∧
      md1.ID = md.ID ∧ md1.Version = md.Version := by
  simp only [MediaClean, assertMedia]
  cases hq : md.SeasonPremiered.Quarter with
  | none => exact ⟨_, rfl, rfl, rfl⟩
  | some q =>
    by_cases h4 : q > 4
    · simp only [if_pos h4]
      exact ⟨_, rfl, rfl, rfl⟩
    · simp only [if_neg h4]
      exact ⟨_, rfl, rfl, rfl⟩

theorem media_update_version (md : Media) (s s2 : DBState) (m2 : Model)
    (oldJ : Json) (oldMD : Media)
    (hstored : storedAt s "Media" (itob md.ID) = some oldJ)
    (hold : MediaUnmarshalJ oldJ = Except.ok oldMD)
    (hlo : -(2 ^ 63) ≤ oldMD.Version) (hhi : oldMD.Version < 2 ^ 63 - 1)
    (h : Update (Model.media md) mediaService s = (Outcome.ok m2, s2)) :
    ∃ md2, m2 = Model.media md2 ∧ md2.Version = oldMD.Version + 1 ∧
      md2.ID = md.ID ∧
      storedAt s2 "Media" (itob md.ID) = some (MediaMarshalJ md2) := by
  obtain ⟨m1, v, o, buf, bd, hc, hf, he, hu, hp, hmar, hstore⟩ := Update_ok _ _ _ _ _ h
  obtain ⟨md1, hceq, hid, _⟩ := MediaClean_ok md
  simp only [mediaService] at hc hf he hu hp hmar hstore
  rw [hceq] at hc
  simp only [Except.ok.injEq] at hc
  subst hc
  simp only [Model.iden, hid] at he hp
  simp only [storedAt] at hstored
  rw [hf] at hstored
  have hstored2 : entryFind bd.entries (itob md.ID) = some oldJ := hstored
  rw [hstored2] at he
  simp only [Option.some.injEq] at he
  subst he
  simp only [MediaUnmarshal, hold] at hu
  simp only [Except.ok.injEq] at hu
  subst hu
  simp only [MediaPersistOld, assertMedia, Except.ok.injEq] at hp
  subst hp
  simp only [MediaMarshal, assertMedia, Except.ok.injEq] at hmar
  subst hmar
  refine ⟨_, rfl, goInc_eq oldMD.Version hlo hhi, hid, ?_⟩
  simp only [storedAt, hstore, Model.iden, hid]
  rw [storeFind_set_self s.store "Media" bd _ hf]
  exact entryFind_put_self bd.entries (itob md.ID) _

theorem person_update_version (p : Person) (s s2 : DBState) (m2 : Model)
    (oldJ : Json) (oldP : Person)
    (hstored : storedAt s "Person" (itob p.ID) = some oldJ)
    (hold : PersonUnmarshalJ oldJ = Except.ok oldP)
    (hlo : -(2 ^ 63) ≤ oldP.Version) (hhi : oldP.Version < 2 ^ 63 - 1)
    (h : Update (Model.person p) personService s = (Outcome.ok m2, s2)) :
    ∃ p2, m2 = Model.person p2 ∧ p2.Version = oldP.Version + 1 ∧
      p2.ID = p.ID ∧
      storedAt s2 "Person" (itob p.ID) = some (PersonMarshalJ p2) := by
  obtain ⟨m1, v, o, buf, bd, hc, hf, he, hu, hp, hmar, hstore⟩ := Update_ok _ _ _ _ _ h
  simp only [personService, PersonClean, assertPerson, infoListClean] at hc
  simp only [Except.ok.injEq] at hc
  subst hc
  simp only [Model.iden] at he hp
  simp only [personService] at hf he hu hp hmar hstore
  simp only [storedAt] at hstored
  rw [hf] at hstored
  have hstored2 : entryFind bd.entries (itob p.ID) = some oldJ := hstored
  rw [hstored2] at he
  simp only [Option.some.injEq] at he
  subst he
  simp only [PersonUnmarshal, hold] at hu
  simp only [Except.ok.injEq] at hu
  subst hu
  simp only [PersonPersistOld, assertPerson, Except.ok.injEq] at hp
  subst hp
  simp only [PersonMarshal, assertPerson, Except.ok.injEq] at hmar
  subst hmar
  refine ⟨_, rfl, goInc_eq oldP.Version hlo hhi, rfl, ?_⟩
  simp only [storedAt, hstore, Model.iden]
  rw [storeFind_set_self s.store "Person" bd _ hf]
  exact entryFind_put_self bd.entries (itob p.ID) _

theorem mediaProducer_update_version (mp : MediaProducer) (s s2 : DBState)
    (mp2 : MediaProducer) (oldJ : Json) (oldMP : MediaProducer)
    (hstored : storedAt s "MediaProducer" (itob mp.ID) = some oldJ)
    (hold : MediaProducerUnmarshalJ oldJ = Except.ok oldMP)
    (hlo : -(2 ^ 63) ≤ oldMP.Version) (hhi : oldMP.Version < 2 ^ 63 - 1)
    (h : MediaProducerUpdate mp s = (Outcome.ok mp2, s2)) :
    mp2.Version = oldMP.Version + 1 ∧ mp2.ID = mp.ID ∧
      storedAt s2 "MediaProducer" (itob mp.ID) = some (MediaProducerMarshalJ mp2) := by
  obtain ⟨w, a1, hb, hs2⟩ := dbUpdate_ok _ _ _ _ h
  simp only [Bucket] at hb
  simp only [storedAt] at hstored
  cases hf : storeFind s.store "MediaProducer" with
  | none => rw [hf] at hstored; simp at hstored
  | some bd =>
    rw [hf] at hstored
    have hstored2 : entryFind bd.entries (itob mp.ID) = some oldJ := hstored
    rw [hf] at hb
    simp only [bget, hstored2] at hb
    rw [hold] at hb
    simp only [putKey, hf, Prod.mk.injEq, Outcome.ok.injEq] at hb
    obtain ⟨hmp2, hw, ha1⟩ := hb
    subst hmp2
    refine ⟨goInc_eq oldMP.Version hlo hhi, rfl, ?_⟩
    simp only [storedAt, hs2, ← hw]
    rw [storeFind_set_self s.store "MediaProducer" bd _ hf]
    exact entryFind_put_self bd.entries (itob mp.ID) _

theorem entryFind_none (l : List (List Nat × Json)) (k : List Nat)
    (h : ∀ p ∈ l, p.1 ≠ k) : entryFind l k = none := by
  induction l with
  | nil => rfl
  | cons hd tl ih =>
    obtain ⟨k0, v0⟩ := hd
    have hne : k0 ≠ k := h (k0, v0) (List.mem_cons_self _ _)
    simp only [entryFind, if_neg hne]
    exact ih (fun p hp => h p (List.mem_cons_of_mem _ hp))

theorem itob_i64 (n : Nat) (h : n < 2 ^ 64) : itob (i64 n) = beBytes 8 n := by
  simp only [itob, u64_i64 n h]

theorem entryFind_fresh (bd : BucketData)
    (hinv : ∀ k ∈ bd.entries.map Prod.fst, ∃ n, n ≤ bd.seq ∧ k = beBytes 8 n)
    (hseq : bd.seq + 1 < 2 ^ 64) :
    entryFind bd.entries (beBytes 8 (bd.seq + 1)) = none := by
  apply entryFind_none
  intro p hp hkey
  obtain ⟨n, hn, hk⟩ := hinv p.1 (List.mem_map_of_mem Prod.fst hp)
  rw [hk] at hkey
  have hb1 : n < 256 ^ 8 := by
    rw [← pow_conv]
    omega
  have hb2 : bd.seq + 1 < 256 ^ 8 := by
    rw [← pow_conv]
    omega
  have := beBytes_inj 8 n (bd.seq + 1) hb1 hb2 hkey
  omega

theorem mediaRelation_create_fresh (mr : MediaRelation) (s s2 : DBState) (m2 : Model)
    (bd : BucketData)
    (hf : storeFind s.store "MediaRelation" = some bd)
    (hinv : ∀ k ∈ bd.entries.map Prod.fst, ∃ n, n ≤ bd.seq ∧ k = beBytes 8 n)
    (hseq : bd.seq + 1 < 2 ^ 64)
    (h : Create (Model.mediaRelation mr) mediaRelationService s = (Outcome.ok m2, s2)) :
    ∃ mr2, m2 = Model.mediaRelation mr2 ∧ mr2.Version = 0 ∧
      mr2.ID = i64 (bd.seq + 1) ∧
      storedAt s "MediaRelation" (itob mr2.ID) = none ∧
      storedAt s2 "MediaRelation" (itob mr2.ID) = some (MediaRelationMarshalJ mr2) := by
  obtain ⟨m1, a, bd1, buf, hc, hv, hf1, hi, hmar, hstore⟩ := Create_ok _ _ _ _ _ h
  simp only [mediaRelationService] at hc hv hf1 hi hmar hstore
  rw [hf] at hf1
  simp only [Option.some.injEq] at hf1
  subst hf1
  simp only [MediaRelationClean, assertMediaRelation, Except.ok.injEq] at hc
  subst hc
  rw [Nat.mod_eq_of_lt hseq] at hi
  simp only [MediaRelationInit, assertMediaRelation, Except.ok.injEq] at hi
  subst hi
  simp only [MediaRelationMarshal, assertMediaRelation, Except.ok.injEq] at hmar
  subst hmar
  refine ⟨_, rfl, rfl, rfl, ?_, ?_⟩
  · simp only [storedAt, hf, Model.iden]
    rw [itob_i64 (bd.seq + 1) hseq]
    exact entryFind_fresh bd hinv hseq
  · simp only [storedAt, hstore, Model.iden]
    rw [storeFind_set_self s.store "MediaRelation" bd _ hf]
    rw [Nat.mod_eq_of_lt hseq]
    exact entryFind_put_self bd.entries _ _

theorem media_create_fresh (md : Media) (s s2 : DBState) (m2 : Model)
    (bd : BucketData)
    (hf : storeFind s.store "Media" = some bd)
    (hinv : ∀ k ∈ bd.entries.map Prod.fst, ∃ n, n ≤ bd.seq ∧ k = beBytes 8 n)
    (hseq : bd.seq + 1 < 2 ^ 64)
    (h : Create (Model.media md) mediaService s = (Outcome.ok m2, s2)) :
    ∃ md2, m2 = Model.media md2 ∧ md2.Version = 0 ∧
      md2.ID = i64 (bd.seq + 1) ∧
      storedAt s "Media" (itob md2.ID) = none ∧
      storedAt s2 "Media" (itob md2.ID) = some (MediaMarshalJ md2) := by
  obtain ⟨m1, a, bd1, buf, hc, hv, hf1, hi, hmar, hstore⟩ := Create_ok _ _ _ _ _ h
  obtain ⟨md1, hceq, _, _⟩ := MediaClean_ok md
  simp only [mediaService] at hc hv hf1 hi hmar hstore
  rw [hf] at hf1
  simp only [Option.some.injEq] at hf1
  subst hf1
  rw [hceq] at hc
  simp only [Except.ok.injEq] at hc
  subst hc
  rw [Nat.mod_eq_of_lt hseq] at hi
  simp only [MediaInit, assertMedia, Except.ok.injEq] at hi
  subst hi
  simp only [MediaMarshal, assertMedia, Except.ok.injEq] at hmar
  subst hmar
  refine ⟨_, rfl, rfl, rfl, ?_, ?_⟩
  · simp only [storedAt, hf, Model.iden]
    rw [itob_i64 (bd.seq + 1) hseq]
    exact entryFind_fresh bd hinv hseq
  · simp only [storedAt, hstore, Model.iden]
    rw [storeFind_set_self s.store "Media" bd _ hf]
    rw [Nat.mod_eq_of_lt hseq]
    exact entryFind_put_self bd.entries _ _

theorem person_create_fresh (p : Person) (s s2 : DBState) (m2 : Model)
    (bd : BucketData)
    (hf : storeFind s.store "Person" = some bd)
    (hinv : ∀ k ∈ bd.entries.map Prod.fst, ∃ n, n ≤ bd.seq ∧ k = beBytes 8 n)
    (hseq : bd.seq + 1 < 2 ^ 64)
    (h : Create (Model.person p) personService s = (Outcome.ok m2, s2)) :
    ∃ p2, m2 = Model.person p2 ∧ p2.Version = 0 ∧
      p2.ID = i64 (bd.seq + 1) ∧
      storedAt s "Person" (itob p2.ID) = none ∧
      storedAt s2 "Person" (itob p2.ID) = some (PersonMarshalJ p2) := by
  obtain ⟨m1, a, bd1, buf, hc, hv, hf1, hi, hmar, hstore⟩ := Create_ok _ _ _ _ _ h
  simp only [personService] at hc hv hf1 hi hmar hstore
  rw [hf] at hf1
  simp only [Option.some.injEq] at hf1
  subst hf1
  simp only [PersonClean, assertPerson, infoListClean, Except.ok.injEq] at hc
  subst hc
  rw [Nat.mod_eq_of_lt hseq] at hi
  simp only [PersonInit, assertPerson, Except.ok.injEq] at hi
  subst hi
  simp only [PersonMarshal, assertPerson, Except.ok.injEq] at hmar
  subst hmar
  refine ⟨_, rfl, rfl, rfl, ?_, ?_⟩
  · simp only [storedAt, hf, Model.iden]
    rw [itob_i64 (bd.seq + 1) hseq]
    exact entryFind_fresh bd hinv hseq
  · simp only [storedAt, hstore, Model.iden]
    rw [storeFind_set_self s.store "Person" bd _ hf]
    rw [Nat.mod_eq_of_lt hseq]
    exact entryFind_put_self bd.entries _ _

/-- C1, amended: the referential-validation lookups of a Create on a
junction entity (MediaRelation) do all happen inside one single read-only
transaction, but that transaction is opened by the Validate hook itself
before the write transaction starts: on a successful Create starting at
transaction counter n, both Media lookups carry transaction id n while
the put carries transaction id n + 1, so no lookup shares a transaction
with the write.  The claim as frozen (lookups and put in one and the same
transaction) is therefore false on the code; see the counterexample. -/
theorem create_validate_separate_tx (mr : MediaRelation) (st : Store) (n : Nat)
    (m2 : Model) (s2 : DBState)
    (h : Create (Model.mediaRelation mr) mediaRelationService ⟨st, n, []⟩ =
      (Outcome.ok m2, s2)) :
    s2.events = [Event.lookup n "Media" (itob mr.OwnerID),
      Event.lookup n "Media" (itob mr.RelatedID),
      Event.put (n + 1) "MediaRelation" (itob (Model.iden m2))] ∧ n ≠ n + 1 := by
  refine ⟨?_, by omega⟩
  unfold Create at h
  simp only [mediaRelationService, MediaRelationClean, assertMediaRelation,
    MediaRelationValidate, dbView, Bucket, bget] at h
  cases hmf : storeFind st "Media" with
  | none => rw [hmf] at h; simp at h
  | some mbd =>
    rw [hmf] at h
    simp only [] at h
    cases ho : entryFind mbd.entries (itob mr.OwnerID) with
    | none => rw [ho] at h; simp at h
    | some vo =>
      rw [ho] at h
      simp only [] at h
      cases hr : entryFind mbd.entries (itob mr.RelatedID) with
      | none => rw [hr] at h; simp at h
      | some vr =>
        rw [hr] at h
        simp only [] at h
        obtain ⟨w, a1, hb, hs2⟩ := dbUpdate_ok _ _ _ _ h
        simp only [Bucket] at hb
        cases hrel : storeFind st "MediaRelation" with
        | none => rw [hrel] at hb; simp at hb
        | some rbd =>
          rw [hrel] at hb
          simp only [NextSequence, hrel, MediaRelationInit, assertMediaRelation,
            MediaRelationMarshal, putKey,
            storeFind_set_self st "MediaRelation" rbd _ hrel,
            Prod.mk.injEq, Outcome.ok.injEq] at hb
          obtain ⟨hm2, hw, ha1⟩ := hb
          rw [hs2]
          simp only [← ha1, hm2]
          simp [Model.iden]

theorem getByID_absent (ser : Service) (id : Int) (s : DBState) (bd : BucketData)
    (hf : storeFind s.store ser.bucketName = some bd)
    (he : entryFind bd.entries (itob id) = none) :
    (GetByID id ser s).1 = Outcome.err (Err.notFound id) ∧
    (GetByID id ser s).2.store = s.store := by
  unfold GetByID GetRawByID dbView
  simp only [Bucket, hf, bget, he]
  exact ⟨trivial, trivial⟩

theorem getByID_present (ser : Service) (id : Int) (s : DBState) (bd : BucketData)
    (v : Json) (m : Model)
    (hf : storeFind s.store ser.bucketName = some bd)
    (he : entryFind bd.entries (itob id) = some v)
    (hu : ser.Unmarshal v = Except.ok m) :
    (GetByID id ser s).1 = Outcome.ok m := by
  unfold GetByID GetRawByID dbView
  simp only [Bucket, hf, bget, he, hu]

theorem update_absent (ser : Service) (m m1 : Model) (s : DBState) (a : Aux)
    (bd : BucketData)
    (hc : ser.Clean m = Except.ok m1)
    (hv : ser.Validate m1 s.store ⟨s.nextTx, s.events⟩ = (Outcome.ok (), a))
    (hf : storeFind s.store ser.bucketName = some bd)
    (he : entryFind bd.entries (itob (Model.iden m1)) = none) :
    (Update m ser s).1 = Outcome.err (Err.notFound (Model.iden m1)) ∧
    (Update m ser s).2.store = s.store := by
  unfold Update
  simp only [hc, hv, dbUpdate, GetRawByID, dbView, Bucket, hf, bget, he]
  exact ⟨trivial, trivial⟩


theorem except_bind_ok {α β : Type} (x : α) (f : α → Except Err β) :
    (Except.ok x >>= f) = f x := rfl

theorem decTime_timeJson (o : Option GoTime) : decTime (some (timeJson o)) = Except.ok o := by
  cases o <;> rfl

theorem decOptStr_optStrJson (o : Option String) : decOptStr (some (optStrJson o)) = Except.ok o := by
  cases o <;> rfl

theorem decOptNum_optNumJson (o : Option Int) : decOptNum (some (optNumJson o)) = Except.ok o := by
  cases o <;> rfl

theorem decSeason_seasonJson (sn : Season) : decSeason (some (seasonJson sn)) = Except.ok sn := by
  obtain ⟨q, y⟩ := sn
  cases q <;> cases y <;> rfl

theorem decStrPairs_map (l : List (String × String)) :
    decStrPairs (l.map (fun p => (p.1, Json.str p.2))) = Except.ok l := by
  induction l with
  | nil => rfl
  | cons hd tl ih =>
    obtain ⟨k, v⟩ := hd
    simp only [List.map, decStrPairs, ih]

theorem decStrMap_strMapJson (l : List (String × String)) :
    decStrMap (some (strMapJson l)) = Except.ok l := by
  simp only [strMapJson, decStrMap, decStrPairs_map]

theorem decInfoItems_map (l : List Info) :
    decInfoItems (l.map infoJson) = Except.ok l := by
  induction l with
  | nil => rfl
  | cons hd tl ih =>
    obtain ⟨t⟩ := hd
    simp only [List.map, infoJson, decInfoItems, ih]

theorem decInfoList_infoListJson (l : List Info) :
    decInfoList (some (infoListJson l)) = Except.ok l := by
  simp only [infoListJson, decInfoList, decInfoItems_map]

theorem media_roundtrip (md : Media) :
    MediaUnmarshalJ (MediaMarshalJ md) = Except.ok md := by
  simp only [MediaMarshalJ, MediaUnmarshalJ, jLookup, String.reduceEq, reduceIte,
    decNum, decStrMap_strMapJson, decTime_timeJson, decOptStr_optStrJson,
    decSeason_seasonJson, except_bind_ok]

theorem decUNum_nat (d : Nat) : decUNum (some (Json.num (d : Int))) = Except.ok d := by
  simp only [decUNum]
  rw [if_neg (by omega : ¬((d : Int) < 0))]
  simp

theorem person_roundtrip (p : Person) :
    PersonUnmarshalJ (PersonMarshalJ p) = Except.ok p := by
  simp only [PersonMarshalJ, PersonUnmarshalJ, jLookup, String.reduceEq, reduceIte,
    decNum, decInfoList_infoListJson, except_bind_ok]

theorem mediaRelation_roundtrip (mr : MediaRelation) :
    MediaRelationUnmarshalJ (MediaRelationMarshalJ mr) = Except.ok mr := by
  simp only [MediaRelationMarshalJ, MediaRelationUnmarshalJ, jLookup, String.reduceEq,
    reduceIte, decNum, decStr, except_bind_ok]

theorem episode_roundtrip (ep : Episode) :
    EpisodeUnmarshalJ (EpisodeMarshalJ ep) = Except.ok ep := by
  simp only [EpisodeMarshalJ, EpisodeUnmarshalJ, jLookup, String.reduceEq, reduceIte,
    decNum, decInfoList_infoListJson, decTime_timeJson, decUNum_nat, decBool,
    except_bind_ok]

theorem mediaProducer_roundtrip (mp : MediaProducer) :
    MediaProducerUnmarshalJ (MediaProducerMarshalJ mp) = Except.ok mp := by
  simp only [MediaProducerMarshalJ, MediaProducerUnmarshalJ, jLookup, String.reduceEq,
    reduceIte, decNum, decStr, except_bind_ok]

theorem watchStatus_roundtrip (ws : Int) (j : Json)
    (h : WatchStatusMarshalJSON ws = Except.ok j) :
    WatchStatusUnmarshalJSON j = Except.ok ws := by
  unfold WatchStatusMarshalJSON at h
  split_ifs at h with h0 h1 h2 h3
  · injection h with hj
    subst hj
    subst h0
    rfl
  · injection h with hj
    subst hj
    subst h1
    rfl
  · injection h with hj
    subst hj
    subst h2
    rfl
  · injection h with hj
    subst hj
    subst h3
    rfl

/-- C1 counterexample: on a concrete successful Create of a MediaRelation,
the two referential lookups run in transaction 0 while the put runs in
transaction 1, refuting the frozen claim that all lookups and the put
share one transaction. -/
theorem c1_counterexample :
    c1Run.events = [Event.lookup 0 "Media" (itob 1), Event.lookup 0 "Media" (itob 1),
      Event.put 1 "MediaRelation" (itob 1)] ∧ (0 : Nat) ≠ 1 :=
  ⟨rfl, by omega⟩

/-- Witness for the C1 theorem at the concrete c1 run. -/
theorem c1_witness :
    Create (Model.mediaRelation c1MR) mediaRelationService ⟨c1Store, 0, []⟩ =
      (Outcome.ok c1M2, c1Run) ∧
    (c1Run.events = [Event.lookup 0 "Media" (itob c1MR.OwnerID),
      Event.lookup 0 "Media" (itob c1MR.RelatedID),
      Event.put (0 + 1) "MediaRelation" (itob (Model.iden c1M2))] ∧ (0 : Nat) ≠ 0 + 1) :=
  ⟨rfl, create_validate_separate_tx c1MR c1Store 0 c1M2 c1Run rfl⟩

/-- C2 counterexample: the Episode entity type carries no Version counter
at all; a successful EpisodeUpdate stores the caller's entity verbatim
and the stored JSON has no Version field, refuting the frozen claim that
every entity type's Update stores Version equal to the old Version plus
one. -/
theorem c2_counterexample :
    (EpisodeUpdate c2EpNew ⟨c2Store, 0, []⟩).1 = Outcome.ok c2EpNew ∧
    storedAt c2Run "Episode" (itob 1) = some (EpisodeMarshalJ c2EpNew) ∧
    jVersion (EpisodeMarshalJ c2EpNew) = none ∧
    jVersion (EpisodeMarshalJ c2EpOld) = none :=
  ⟨rfl, rfl, rfl, rfl⟩

/-- C2, amended: for the versioned entity types (Media, Person and
MediaRelation through the generic Update, and MediaProducer through
MediaProducerUpdate of pkg/data), a successful Update of the entity with
a given identifier stores a value whose Version equals the previously
stored Version plus exactly one, regardless of the caller-supplied
Version, provided the previously stored Version is an in-range 64-bit
int below its maximum (at the maximum, Go's wrapping int addition would
store the wrapped value instead); the pkg/data Episode type carries no
Version and EpisodeUpdate stores the caller's entity verbatim. -/
theorem c2_update_increments_version :
    (∀ (mr : MediaRelation) (s s2 : DBState) (m2 : Model) (oldJ : Json)
        (oldMR : MediaRelation),
      storedAt s "MediaRelation" (itob mr.ID) = some oldJ →
      MediaRelationUnmarshalJ oldJ = Except.ok oldMR →
      -(2 ^ 63) ≤ oldMR.Version → oldMR.Version < 2 ^ 63 - 1 →
      Update (Model.mediaRelation mr) mediaRelationService s = (Outcome.ok m2, s2) →
      ∃ mr2, m2 = Model.mediaRelation mr2 ∧ mr2.Version = oldMR.Version + 1 ∧
        mr2.ID = mr.ID ∧
        storedAt s2 "MediaRelation" (itob mr.ID) = some (MediaRelationMarshalJ mr2)) ∧
    (∀ (md : Media) (s s2 : DBState) (m2 : Model) (oldJ : Json) (oldMD : Media),
      storedAt s "Media" (itob md.ID) = some oldJ →
      MediaUnmarshalJ oldJ = Except.ok oldMD →
      -(2 ^ 63) ≤ oldMD.Version → oldMD.Version < 2 ^ 63 - 1 →
      Update (Model.media md) mediaService s = (Outcome.ok m2, s2) →
      ∃ md2, m2 = Model.media md2 ∧ md2.Version = oldMD.Version + 1 ∧
        md2.ID = md.ID ∧
        storedAt s2 "Media" (itob md.ID) = some (MediaMarshalJ md2)) ∧
    (∀ (p : Person) (s s2 : DBState) (m2 : Model) (oldJ : Json) (oldP : Person),
      storedAt s "Person" (itob p.ID) = some oldJ →
      PersonUnmarshalJ oldJ = Except.ok oldP →
      -(2 ^ 63) ≤ oldP.Version → oldP.Version < 2 ^ 63 - 1 →
      Update (Model.person p) personService s = (Outcome.ok m2, s2) →
      ∃ p2, m2 = Model.person p2 ∧ p2.Version = oldP.Version + 1 ∧
        p2.ID = p.ID ∧
        storedAt s2 "Person" (itob p.ID) = some (PersonMarshalJ p2)) ∧
    (∀ (mp : MediaProducer) (s s2 : DBState) (mp2 : MediaProducer) (oldJ : Json)
        (oldMP : MediaProducer),
      storedAt s "MediaProducer" (itob mp.ID) = some oldJ →
      MediaProducerUnmarshalJ oldJ = Except.ok oldMP →
      -(2 ^ 63) ≤ oldMP.Version → oldMP.Version < 2 ^ 63 - 1 →
      MediaProducerUpdate mp s = (Outcome.ok mp2, s2) →
      mp2.Version = oldMP.Version + 1 ∧ mp2.ID = mp.ID ∧
        storedAt s2 "MediaProducer" (itob mp.ID) = some (MediaProducerMarshalJ mp2)) :=
  ⟨mediaRelation_update_version, media_update_version, person_update_version,
    mediaProducer_update_version⟩

/-- Witness for the C2 theorem: updating MediaRelation 1 (stored Version 3)
with a caller Version of 99 stores Version 4. -/
theorem c2_witness :
    storedAt c2wS "MediaRelation" (itob c2wNewMR.ID) = some (MediaRelationMarshalJ c2wOldMR) ∧
    MediaRelationUnmarshalJ (MediaRelationMarshalJ c2wOldMR) = Except.ok c2wOldMR ∧
    -(2 ^ 63) ≤ c2wOldMR.Version ∧ c2wOldMR.Version < 2 ^ 63 - 1 ∧
    Update (Model.mediaRelation c2wNewMR) mediaRelationService c2wS =
      (Outcome.ok c2wM2, c2wRun.2) ∧
    (∃ mr2, c2wM2 = Model.mediaRelation mr2 ∧ mr2.Version = c2wOldMR.Version + 1 ∧
      mr2.ID = c2wNewMR.ID ∧
      storedAt c2wRun.2 "MediaRelation" (itob c2wNewMR.ID) = some (MediaRelationMarshalJ mr2)) :=
  ⟨rfl, rfl, by norm_num [c2wOldMR], by norm_num [c2wOldMR], rfl,
    c2_update_increments_version.1 c2wNewMR c2wS c2wRun.2 c2wM2
      (MediaRelationMarshalJ c2wOldMR) c2wOldMR rfl rfl (by norm_num [c2wOldMR])
      (by norm_num [c2wOldMR]) rfl⟩

/-- C3 counterexample: MediaProducerCreate of pkg/data assigns a fresh
sequence identifier but stores the caller-supplied Version unchanged: a
create with caller Version 7 succeeds and the stored value's Version is
7, not 0. -/
theorem c3_counterexample :
    c3Run.1 = Outcome.ok ⟨1, 1, 1, "Studio", 7⟩ ∧
    storedAt c3Run.2 "MediaProducer" (itob 1) =
      some (MediaProducerMarshalJ ⟨1, 1, 1, "Studio", 7⟩) ∧
    jVersion (MediaProducerMarshalJ ⟨1, 1, 1, "Studio", 7⟩) = some 7 ∧
    (7 : Int) ≠ 0 :=
  ⟨rfl, rfl, rfl, by omega⟩

/-- C3, amended: for the internal/data entity types (Media, Person,
MediaRelation) going through the generic Create, when the bucket exists,
every key already in it comes from a sequence value at most the current
counter and the counter does not overflow, a successful Create stores the
entity under the next sequence identifier, which was never previously
used in that bucket, and the stored entity's Version equals 0.  The
pkg/data MediaProducerCreate also assigns a fresh sequence identifier but
keeps the caller's Version (see the counterexample), and pkg/data's
Episode has no Version at all. -/
theorem c3_create_fresh_id_version_zero :
    (∀ (md : Media) (s s2 : DBState) (m2 : Model) (bd : BucketData),
      storeFind s.store "Media" = some bd →
      (∀ k ∈ bd.entries.map Prod.fst, ∃ n, n ≤ bd.seq ∧ k = beBytes 8 n) →
      bd.seq + 1 < 2 ^ 64 →
      Create (Model.media md) mediaService s = (Outcome.ok m2, s2) →
      ∃ md2, m2 = Model.media md2 ∧ md2.Version = 0 ∧ md2.ID = i64 (bd.seq + 1) ∧
        storedAt s "Media" (itob md2.ID) = none ∧
        storedAt s2 "Media" (itob md2.ID) = some (MediaMarshalJ md2)) ∧
    (∀ (p : Person) (s s2 : DBState) (m2 : Model) (bd : BucketData),
      storeFind s.store "Person" = some bd →
      (∀ k ∈ bd.entries.map Prod.fst, ∃ n, n ≤ bd.seq ∧ k = beBytes 8 n) →
      bd.seq + 1 < 2 ^ 64 →
      Create (Model.person p) personService s = (Outcome.ok m2, s2) →
      ∃ p2, m2 = Model.person p2 ∧ p2.Version = 0 ∧ p2.ID = i64 (bd.seq + 1) ∧
        storedAt s "Person" (itob p2.ID) = none ∧
        storedAt s2 "Person" (itob p2.ID) = some (PersonMarshalJ p2)) ∧
    (∀ (mr : MediaRelation) (s s2 : DBState) (m2 : Model) (bd : BucketData),
      storeFind s.store "MediaRelation" = some bd →
      (∀ k ∈ bd.entries.map Prod.fst, ∃ n, n ≤ bd.seq ∧ k = beBytes 8 n) →
      bd.seq + 1 < 2 ^ 64 →
      Create (Model.mediaRelation mr) mediaRelationService s = (Outcome.ok m2, s2) →
      ∃ mr2, m2 = Model.mediaRelation mr2 ∧ mr2.Version = 0 ∧ mr2.ID = i64 (bd.seq + 1) ∧
        storedAt s "MediaRelation" (itob mr2.ID) = none ∧
        storedAt s2 "MediaRelation" (itob mr2.ID) = some (MediaRelationMarshalJ mr2)) :=
  ⟨media_create_fresh, person_create_fresh, mediaRelation_create_fresh⟩

/-- Witness for the C3 theorem: creating a Media in an empty bucket stores
it under identifier 1 with Version 0 even though the caller supplied 9. -/
theorem c3_witness :
    storeFind c3wStore "Media" = some ⟨0, []⟩ ∧
    (0 : Nat) + 1 < 2 ^ 64 ∧
    Create (Model.media c3wMD) mediaService ⟨c3wStore, 0, []⟩ =
      (Outcome.ok c3wM2, c3wRun.2) ∧
    (∃ md2, c3wM2 = Model.media md2 ∧ md2.Version = 0 ∧
      md2.ID = i64 ((0 : Nat) + 1) ∧
      storedAt (⟨c3wStore, 0, []⟩ : DBState) "Media" (itob md2.ID) = none ∧
      storedAt c3wRun.2 "Media" (itob md2.ID) = some (MediaMarshalJ md2)) :=
  ⟨rfl, by norm_num, rfl,
    c3_create_fresh_id_version_zero.1 c3wMD ⟨c3wStore, 0, []⟩ c3wRun.2 c3wM2 ⟨0, []⟩
      rfl (by intro k hk; simp at hk) (by norm_num) rfl⟩

/-- C4: every Create or Update call through the generic engine that fails
with an error at any stage before commit (normalize failure, validation
failure including a dangling foreign identifier, not-found, or encode
failure) leaves the committed store completely unchanged: no key is
added, removed, or altered in any bucket.  This holds for every Service
because the service hooks cannot touch the committed store outside the
single write transaction, which rolls back on error. -/
theorem c4_failure_leaves_store_unchanged :
    (∀ (ser : Service) (m : Model) (s s2 : DBState) (e : Err),
      Create m ser s = (Outcome.err e, s2) → s2.store = s.store) ∧
    (∀ (ser : Service) (m : Model) (s s2 : DBState) (e : Err),
      Update m ser s = (Outcome.err e, s2) → s2.store = s.store) :=
  ⟨Create_err, Update_err⟩

/-- Witness for the C4 theorem: creating a MediaRelation whose RelatedID
99 does not exist fails with not-found and the store is unchanged. -/
theorem c4_witness :
    Create (Model.mediaRelation c4MR) mediaRelationService ⟨c1Store, 0, []⟩ =
      (Outcome.err (Err.notFound 99), c4Run.2) ∧
    c4Run.2.store = c1Store :=
  ⟨rfl,
    c4_failure_leaves_store_unchanged.1 mediaRelationService (Model.mediaRelation c4MR)
      ⟨c1Store, 0, []⟩ c4Run.2 (Err.notFound 99) rfl⟩

/-- Witness for the C5 theorem: deleting the absent identifier 42 from the
existing Media bucket succeeds and leaves no such key. -/
theorem c5_witness :
    storeFind c5Store "Media" = some ⟨0, []⟩ ∧
    ((Delete 42 mediaService ⟨c5Store, 0, []⟩).1 = Outcome.ok () ∧
      storedAt (Delete 42 mediaService ⟨c5Store, 0, []⟩).2 "Media" (itob 42) = none) :=
  ⟨rfl, delete_idempotent mediaService 42 ⟨c5Store, 0, []⟩ ⟨0, []⟩ rfl⟩

/-- C6: for every id absent from an existing bucket, GetByID fails with
the not-found error and leaves the store unchanged; for every id present
whose stored value decodes, GetByID returns the decoded entity; and an
Update addressing an absent id (after its clean and validate hooks
succeed) fails with the same not-found error without storing anything,
so Update cannot create. -/
theorem c6_notfound_and_present_behavior :
    (∀ (ser : Service) (id : Int) (s : DBState) (bd : BucketData),
      storeFind s.store ser.bucketName = some bd →
      entryFind bd.entries (itob id) = none →
      (GetByID id ser s).1 = Outcome.err (Err.notFound id) ∧
      (GetByID id ser s).2.store = s.store) ∧
    (∀ (ser : Service) (id : Int) (s : DBState) (bd : BucketData) (v : Json) (m : Model),
      storeFind s.store ser.bucketName = some bd →
      entryFind bd.entries (itob id) = some v →
      ser.Unmarshal v = Except.ok m →
      (GetByID id ser s).1 = Outcome.ok m) ∧
    (∀ (ser : Service) (m m1 : Model) (s : DBState) (a : Aux) (bd : BucketData),
      ser.Clean m = Except.ok m1 →
      ser.Validate m1 s.store ⟨s.nextTx, s.events⟩ = (Outcome.ok (), a) →
      storeFind s.store ser.bucketName = some bd →
      entryFind bd.entries (itob (Model.iden m1)) = none →
      (Update m ser s).1 = Outcome.err (Err.notFound (Model.iden m1)) ∧
      (Update m ser s).2.store = s.store) :=
  ⟨getByID_absent, getByID_present, update_absent⟩

/-- Witness for the C6 theorem: identifier 7 is absent so GetByID fails
not-found; updating the Media with absent identifier 5 fails not-found
and stores nothing. -/
theorem c6_witness :
    storeFind c5Store "Media" = some ⟨0, []⟩ ∧
    entryFind (BucketData.mk 0 []).entries (itob 7) = none ∧
    ((GetByID 7 mediaService ⟨c5Store, 0, []⟩).1 = Outcome.err (Err.notFound 7) ∧
      (GetByID 7 mediaService ⟨c5Store, 0, []⟩).2.store = c5Store) ∧
    mediaService.Clean (Model.media c6MD) = Except.ok (Model.media c6MD) ∧
    ((Update (Model.media c6MD) mediaService ⟨c5Store, 0, []⟩).1 =
        Outcome.err (Err.notFound (Model.iden (Model.media c6MD))) ∧
      (Update (Model.media c6MD) mediaService ⟨c5Store, 0, []⟩).2.store = c5Store) :=
  ⟨rfl, rfl,
    c6_notfound_and_present_behavior.1 mediaService 7 ⟨c5Store, 0, []⟩ ⟨0, []⟩ rfl rfl,
    rfl,
    c6_notfound_and_present_behavior.2.2 mediaService (Model.media c6MD)
      (Model.media c6MD) ⟨c5Store, 0, []⟩ ⟨0, []⟩ ⟨0, []⟩ rfl rfl rfl rfl⟩

/-- C7: decoding the canonical encoding of any entity reproduces it
exactly, for every embedded entity type (Media, Person, MediaRelation,
Episode, MediaProducer), and the custom WatchStatus codec round-trips on
every value it can encode. -/
theorem c7_roundtrip :
    (∀ md : Media, MediaUnmarshalJ (MediaMarshalJ md) = Except.ok md) ∧
    (∀ p : Person, PersonUnmarshalJ (PersonMarshalJ p) = Except.ok p) ∧
    (∀ mr : MediaRelation,
      MediaRelationUnmarshalJ (MediaRelationMarshalJ mr) = Except.ok mr) ∧
    (∀ ep : Episode, EpisodeUnmarshalJ (EpisodeMarshalJ ep) = Except.ok ep) ∧
    (∀ mp : MediaProducer,
      MediaProducerUnmarshalJ (MediaProducerMarshalJ mp) = Except.ok mp) ∧
    (∀ (ws : Int) (j : Json), WatchStatusMarshalJSON ws = Except.ok j →
      WatchStatusUnmarshalJSON j = Except.ok ws) :=
  ⟨media_roundtrip, person_roundtrip, mediaRelation_roundtrip, episode_roundtrip,
    mediaProducer_roundtrip, watchStatus_roundtrip⟩

/-- Witness for the C7 theorem: the WatchStatus value 0 encodes to the
string Completed and decodes back to 0. -/
theorem c7_witness :
    WatchStatusMarshalJSON 0 = Except.ok (Json.str "Completed") ∧
    WatchStatusUnmarshalJSON (Json.str "Completed") = Except.ok 0 :=
  ⟨rfl, c7_roundtrip.2.2.2.2.2 0 (Json.str "Completed") rfl⟩

/-- C8 counterexample: the key encoding is applied to the two's-complement
view of a signed Go int, so numeric order and byte order disagree on
negative identifiers: minus one is numerically below zero but its key is
lexicographically above the key of zero. -/
theorem c8_counterexample :
    ((-1 : Int) < 0) ∧ lexLt (itob (-1)) (itob 0) = false ∧
    lexLt (itob 0) (itob (-1)) = true :=
  ⟨by norm_num, rfl, rfl⟩

/-- C8, amended: for identifiers in the unsigned 8-byte range (0 up to
2 to the 64, which covers every identifier the engine assigns from the
bucket sequences), a is numerically below b exactly when the 8-byte
big-endian key encoding of a is lexicographically below that of b; for
negative signed values the equivalence fails (see the counterexample). -/
theorem itob_order_preserving (a b : Int) (h0 : 0 ≤ a) (h1 : a < 2 ^ 64)
    (h2 : 0 ≤ b) (h3 : b < 2 ^ 64) :
    lexLt (itob a) (itob b) = true ↔ a < b := by
  have hI : (2 : Int) ^ 64 = 18446744073709551616 := by norm_num
  have hP : (256 : Nat) ^ 8 = 18446744073709551616 := by norm_num
  have ha : u64 a = a.toNat := u64_toNat a h0 h1
  have hb : u64 b = b.toNat := u64_toNat b h2 h3
  have ha2 : u64 a < 256 ^ 8 := by
    rw [ha, hP]
    rw [hI] at h1
    omega
  have hb2 : u64 b < 256 ^ 8 := by
    rw [hb, hP]
    rw [hI] at h3
    omega
  have key := beBytes_lexLt 8 (u64 a) (u64 b) ha2 hb2
  simp only [itob]
  rw [key, ha, hb]
  omega

/-- Witness for the C8 theorem at 3 and 5. -/
theorem c8_witness :
    (0 : Int) ≤ 3 ∧ (3 : Int) < 2 ^ 64 ∧ (0 : Int) ≤ 5 ∧ (5 : Int) < 2 ^ 64 ∧
    (lexLt (itob 3) (itob 5) = true ↔ (3 : Int) < 5) :=
  ⟨by norm_num, by norm_num, by norm_num, by norm_num,
    itob_order_preserving 3 5 (by norm_num) (by norm_num) (by norm_num) (by norm_num)⟩

/-- C9: the bucket-handle lookup never returns a non-nil error, even when
the named bucket does not exist (it returns a nil handle and a nil
error); of its callers only the point-read helper guards against the nil
handle (returning a clean error), while Delete and the full-bucket scan
dereference the handle unconditionally and panic on a missing bucket. -/
theorem c9_bucket_nil_error :
    (∀ (name : String) (t : Nat) (st : Store), (Bucket name t st).2 = none) ∧
    (∀ id : Int, bget id none = (Outcome.err Err.nilBucket, [])) ∧
    (∀ (ser : Service) (id : Int) (s : DBState),
      storeFind s.store ser.bucketName = none → (Delete id ser s).1 = Outcome.panic) ∧
    (∀ (name : String) (s : DBState),
      storeFind s.store name = none → (GetRawAll name s).1 = Outcome.panic) := by
  refine ⟨fun name t st => rfl, fun id => rfl, ?_, ?_⟩
  · intro ser id s h
    unfold Delete dbUpdate
    simp only [Bucket, h]
  · intro name s h
    unfold GetRawAll dbView
    simp only [Bucket, h]

/-- Witness for the C9 theorem on the empty store. -/
theorem c9_witness :
    storeFind ([] : Store) "Media" = none ∧
    (Delete 1 mediaService ⟨[], 0, []⟩).1 = Outcome.panic ∧
    (GetRawAll "Media" ⟨[], 0, []⟩).1 = Outcome.panic :=
  ⟨rfl, c9_bucket_nil_error.2.2.1 mediaService 1 ⟨[], 0, []⟩ rfl,
    c9_bucket_nil_error.2.2.2 "Media" ⟨[], 0, []⟩ rfl⟩

/-- C10: for the non-junction entity types Media and Person, the Validate
hook accepts every non-nil value of the correct concrete type without
touching the database: it performs only the runtime type assertion and
checks no intrinsic and no referential constraints. -/
theorem c10_plain_validate_accepts_all :
    (∀ (md : Media) (st : Store) (a : Aux),
      MediaValidate (Model.media md) st a = (Outcome.ok (), a)) ∧
    (∀ (p : Person) (st : Store) (a : Aux),
      PersonValidate (Model.person p) st a = (Outcome.ok (), a)) :=
  ⟨fun _ _ _ => rfl, fun _ _ _ => rfl⟩
